import Mathlib

/-!
The token derivation pipeline of spire-gcp-helper and its caching token source.

A shallow embedding of `pkg/oauth2/oauth2.go` and `pkg/spiregcp/credentials.go`.

* Go `string`s are Lean `String`s (sequences of Unicode scalar values); the byte-level
  routines of the Go standard library that the program calls only branch on ASCII bytes,
  so they are written over `List Char`.
* Network and agent calls are answered by a `World`; every call is appended to a log
  (`List Call`) that is threaded through the functions, so the order of the calls and the
  absence of a call are properties of the returned log.
* The library functions the program calls (`fmt.Sprintf`, `time.Parse`, `json.Marshal`,
  `oauth2.ReuseTokenSource`) are embedded from their Go sources, restricted to the
  verbs, layout elements and field types this program uses.
-/

set_option autoImplicit false
set_option maxRecDepth 20000

/-! ## fmt -/

namespace fmt

/-- An operand of `Sprintf`: the program passes strings (also the text of an error under
`%v`) and `int`s. -/
inductive Arg where
  | str (s : String)
  | int (n : Int)
deriving DecidableEq

/-- Decimal numeral of an `int`, as `%d` prints it. -/
def fmtInt (n : Int) : List Char :=
  match n with
  | Int.ofNat k => (Nat.repr k).data
  | Int.negSucc k => '-' :: (Nat.repr (k + 1)).data

/-- One operand under one verb, for the verbs the program uses: `%s`/`%v` print a string as
it is, `%d`/`%v` print an `int` in decimal. `%d` on a string and `%s` on an `int` print
Go's bad-verb form; the other verbs of `fmt` do not occur in the program and are not
modelled (they fall to that same branch). -/
def fmtArg (verb : Char) (a : Arg) : List Char :=
  match a with
  | .str s =>
    if verb = 's' ∨ verb = 'v' then s.data
    else '%' :: '!' :: verb :: ("(string=".data ++ s.data ++ [')'])
  | .int n =>
    if verb = 'd' ∨ verb = 'v' then fmtInt n
    else '%' :: '!' :: verb :: ("(int=".data ++ fmtInt n ++ [')'])

/-- The formatting loop of `Sprintf` over the format's characters: `%%` is a percent sign,
`%` followed by a verb consumes the next operand, a verb without operand prints
`%!v(MISSING)`, a trailing `%` prints `%!(NOVERB)`. Flags, widths and surplus operands do not
occur in this program's formats and are not modelled. -/
def sprintfAux : List Char → List Arg → List Char
  | [], _ => []
  | c :: rest, args =>
    if c = '%' then
      match rest, args with
      | [], _ => "%!(NOVERB)".data
      | v :: rest', [] =>
        if v = '%' then '%' :: sprintfAux rest' []
        else '%' :: '!' :: v :: ("(MISSING)".data ++ sprintfAux rest' [])
      | v :: rest', a :: args' =>
        if v = '%' then '%' :: sprintfAux rest' (a :: args')
        else fmtArg v a ++ sprintfAux rest' args'
    else c :: sprintfAux rest args

/-- Go's `fmt.Sprintf`. -/
def Sprintf (format : String) (args : List Arg) : String :=
  ⟨sprintfAux format.data args⟩

end fmt

/-! ## Errors -/

/-- A Go `error` value, by what can be observed of it. -/
inductive GoError where
  /-- an error built in this package by `fmt.Errorf` (no `%w`): only a message -/
  | errorf (msg : String)
  /-- an error returned by a library call and passed on unchanged, with its text -/
  | library (msg : String)
  /-- a `*time.ParseError`, with its `Layout` and `Value` fields -/
  | timeParse (layout value : String)
deriving DecidableEq

/-! ## time -/

namespace time

/-- A `time.Time`, as the instant it denotes: nanoseconds since 0001-01-01T00:00:00 UTC
(Go stores seconds since that instant and nanoseconds within the second; the count is
unbounded here, the program only builds instants of the years 0 to 9999). -/
structure Time where
  ns : Int
deriving DecidableEq

/-- Go's `Time.IsZero`: the instant is January 1, year 1, 00:00:00 UTC. -/
def Time.IsZero (t : Time) : Bool := t.ns == 0

/-- Go's `Time.Before`. -/
def Time.Before (t u : Time) : Bool := decide (t.ns < u.ns)

/-- Go's `Time.Add`, the duration in nanoseconds. -/
def Time.Add (t : Time) (d : Int) : Time := ⟨t.ns + d⟩

/-- Go's `time.Second`, in nanoseconds. -/
def Second : Int := 1000000000

def isLeap (year : Int) : Bool :=
  year % 4 == 0 && (year % 100 != 0 || year % 400 == 0)

/-- Days of a non-leap year before month `m` (1 = January); Go's table `daysBefore[m-1]`. -/
def daysBefore : Int → Int
  | 1 => 0 | 2 => 31 | 3 => 59 | 4 => 90 | 5 => 120 | 6 => 151
  | 7 => 181 | 8 => 212 | 9 => 243 | 10 => 273 | 11 => 304 | 12 => 334
  | _ => 365

def daysIn (m : Int) (year : Int) : Int :=
  if m == 2 && isLeap year then 29 else daysBefore (m + 1) - daysBefore m

/-- Days from 0001-01-01 to the given day of the proleptic Gregorian calendar. -/
def daysSinceYear1 (year month day : Int) : Int :=
  let y := year - 1
  365 * y + y / 4 - y / 100 + y / 400 + daysBefore month
    + (if isLeap year && decide (month > 2) then 1 else 0) + (day - 1)

/-- Go's `time.Date(year, month, day, hour, min, sec, nsec, time.UTC)` for in-range fields (the
only ones `Parse` passes). -/
def Date (year month day hour min sec nsec : Int) : Time :=
  ⟨(((daysSinceYear1 year month day * 24 + hour) * 60 + min) * 60 + sec) * 1000000000 + nsec⟩

def isDigitChar (c : Char) : Bool := decide ('0' ≤ c) && decide (c ≤ '9')

/-- Go's `isDigit(s, i)`: index `i` exists and holds a decimal digit. -/
def isDigit (s : List Char) (i : Nat) : Bool :=
  match s.get? i with
  | none => false
  | some c => isDigitChar c

def digitVal (c : Char) : Int := (c.toNat : Int) - 48

/-- Go's `getnum(s, fixed)`: a one- or two-digit number; two digits are required when `fixed`. -/
def getnum (s : List Char) (fixed : Bool) : Option (Int × List Char) :=
  if !isDigit s 0 then none
  else if !isDigit s 1 then
    if fixed then none
    else match s with
      | c :: rest => some (digitVal c, rest)
      | [] => none
  else match s with
    | c :: d :: rest => some (digitVal c * 10 + digitVal d, rest)
    | _ => none

/-- Go's `leadingInt(s)`: the leading digits as a number, and the rest (its overflow exit needs
more than 18 digits; `Parse` passes at most 9). -/
def leadingInt : List Char → Int → Int × List Char
  | [], x => (x, [])
  | c :: rest, x =>
    if isDigitChar c then leadingInt rest (x * 10 + digitVal c)
    else (x, c :: rest)

/-- Go's `atoi(s)`: an optional sign and digits, nothing else. -/
def atoi (s : List Char) : Option Int :=
  let signed := match s with
    | c :: _ => c == '-' || c == '+'
    | [] => false
  let neg := signed && s.head? == some '-'
  let s := if signed then s.drop 1 else s
  match leadingInt s 0 with
  | (q, []) => some (if neg then -q else q)
  | _ => none

/-- The layout elements of `2006-01-02T15:04:05Z`. -/
inductive Std where
  | stdLongYear | stdZeroMonth | stdZeroDay | stdHour | stdZeroMinute | stdZeroSecond
deriving DecidableEq

/-- The local variables of `parse` that this layout can set, with their initial values. -/
structure Fields where
  year : Int := 0
  month : Int := -1
  day : Int := -1
  hour : Int := 0
  min : Int := 0
  sec : Int := 0
  nsec : Int := 0
deriving DecidableEq

/-- Go's `skip(value, lit)` for literal text without spaces: the value must start with it. -/
def skip : List Char → List Char → Option (List Char)
  | value, [] => some value
  | [], _ :: _ => none
  | v :: value, p :: lit => if v = p then skip value lit else none

def commaOrPeriod (c : Char) : Bool := c == '.' || c == ','

/-- Length of the run of digits at the head of the list. -/
def digitRun : List Char → Nat
  | [] => 0
  | c :: rest => if isDigitChar c then digitRun rest + 1 else 0

/-- Go's `parseNanoseconds(value, nbytes)`: `value[0]` is the separator, `value[1:nbytes]` the
digits; digits beyond the ninth are dropped. -/
def parseNanoseconds (value : List Char) (nbytes : Nat) : Option Int :=
  match value with
  | [] => none
  | c :: _ =>
    if !commaOrPeriod c then none
    else
      let (value, nbytes) := if nbytes > 10 then (value.take 10, 10) else (value, nbytes)
      match atoi ((value.take nbytes).drop 1) with
      | none => none
      | some ns => if ns < 0 then none else some (ns * 10 ^ (10 - nbytes))

/-- One turn of the `switch std & stdMask` in `parse`, for the elements of this layout. A
range error and a syntax error both end the parse. -/
def parseElem (std : Std) (value : List Char) (f : Fields) : Option (Fields × List Char) :=
  match std with
  | .stdLongYear =>
    if value.length < 4 || !isDigit value 0 then none
    else match atoi (value.take 4) with
      | none => none
      | some y => some ({ f with year := y }, value.drop 4)
  | .stdZeroMonth =>
    match getnum value true with
    | none => none
    | some (m, rest) => if m ≤ 0 || 12 < m then none else some ({ f with month := m }, rest)
  | .stdZeroDay =>
    match getnum value true with
    | none => none
    | some (d, rest) =>
      -- any one- or two-digit day passes here; the day is checked after the loop
      some ({ f with day := d }, rest)
  | .stdHour =>
    match getnum value false with
    | none => none
    | some (h, rest) => if h < 0 || 24 ≤ h then none else some ({ f with hour := h }, rest)
  | .stdZeroMinute =>
    match getnum value true with
    | none => none
    | some (m, rest) => if m < 0 || 60 ≤ m then none else some ({ f with min := m }, rest)
  | .stdZeroSecond =>
    match getnum value true with
    | none => none
    | some (s, rest) =>
      if s < 0 || 60 ≤ s then none
      else if decide (rest.length ≥ 2) && commaOrPeriod (rest.headD 'x') && isDigit rest 1 then
        -- a fractional second in the input although the layout has none
        let n := 2 + digitRun (rest.drop 2)
        match parseNanoseconds rest n with
        | none => none
        | some ns => some ({ f with sec := s, nsec := ns }, rest.drop n)
      else some ({ f with sec := s }, rest)

/-- The loop of `parse` over the chunks `nextStdChunk` cuts from the layout: literal text
to skip, then an element to read. -/
def parseLoop : List (List Char × Std) → List Char → Fields → Option (Fields × List Char)
  | [], value, f => some (f, value)
  | (lit, std) :: chunks, value, f =>
    match skip value lit with
    | none => none
    | some value =>
      match parseElem std value f with
      | none => none
      | some (f, value) => parseLoop chunks value f

/-- The layout the program passes to `time.Parse`. -/
def layout : String := "2006-01-02T15:04:05Z"

/-- What `nextStdChunk` makes of `layout`: `2006`, `-` `01`, `-` `02`, `T` `15`, `:` `04`,
`:` `05`. -/
def layoutChunks : List (List Char × Std) :=
  [([], .stdLongYear), (['-'], .stdZeroMonth), (['-'], .stdZeroDay),
   (['T'], .stdHour), ([':'], .stdZeroMinute), ([':'], .stdZeroSecond)]

/-- The rest of `layout` after its last element: a lone `Z` is literal text. -/
def layoutTail : List Char := ['Z']

/-- The body of `parse` for `layout` in UTC: the loop, the final literal, no text left over,
the day checked against the month, then `Date`. -/
def parseValue (value : List Char) : Option Time :=
  match parseLoop layoutChunks value {} with
  | none => none
  | some (f, value) =>
    match skip value layoutTail with
    | none => none
    | some rest =>
      if rest.length != 0 then none
      else
        let month := if f.month < 0 then 1 else f.month
        let day := if f.day < 0 then 1 else f.day
        if day < 1 || day > daysIn month f.year then none
        else some (Date f.year month day f.hour f.min f.sec f.nsec)

/-- Go's `time.Parse(layout, value)` for the program's layout. -/
def Parse (value : String) : Except GoError Time :=
  match parseValue value.data with
  | none => .error (.timeParse layout value)
  | some t => .ok t

end time

/-! ## encoding/json: the encoder -/

namespace json

/-- Go's `hex[n]`, the lower-case hexadecimal digit. -/
def hex (n : Nat) : Char := "0123456789abcdef".data.getD n '0'

/-- Go's `htmlSafeSet[b]` for an ASCII character: everything from the space on except the
double quote, `&`, `<`, `>` and the backslash. -/
def htmlSafe (c : Char) : Bool :=
  decide (0x20 ≤ c.toNat) && c != '\x22' && c != '&' && c != '<' && c != '>' && c != '\x5c'

/-- What `appendString` (with `escapeHTML`, as `Marshal` calls it) writes for one
character of a valid UTF-8 string. Releases of Go before 1.22 write the backspace and the
form feed as `\u0008` and `\u000c`; the reader below takes both spellings. -/
def encodeChar (c : Char) : List Char :=
  if c.toNat < 0x80 then
    if htmlSafe c then [c]
    else if c = '\x5c' ∨ c = '\x22' then ['\x5c', c]
    else if c = '\x08' then ['\x5c', 'b']
    else if c = '\x0c' then ['\x5c', 'f']
    else if c = '\n' then ['\x5c', 'n']
    else if c = '\r' then ['\x5c', 'r']
    else if c = '\t' then ['\x5c', 't']
    else ['\x5c', 'u', '0', '0', hex (c.toNat / 16), hex (c.toNat % 16)]
  else if c.toNat = 0x2028 ∨ c.toNat = 0x2029 then
    ['\x5c', 'u', '2', '0', '2', hex (c.toNat % 16)]
  else [c]

/-- The characters between the quotes. -/
def encodeChars : List Char → List Char
  | [] => []
  | c :: rest => encodeChar c ++ encodeChars rest

/-- Go's `appendString`: a Go string as a JSON string literal. -/
def appendString (s : String) : List Char :=
  '\x22' :: (encodeChars s.data ++ ['\x22'])

/-- A struct field of type `string` as the encoder sees it: the name of its `json` tag,
whether the tag says `omitempty`, and the value. -/
structure Field where
  name : String
  omitEmpty : Bool
  value : String
deriving DecidableEq

/-- The fields the struct encoder writes: an empty string under `omitempty` is left out. -/
def emitted (fs : List Field) : List Field :=
  fs.filter (fun f => !(f.omitEmpty && f.value == ""))

/-- One member, `"name":"value"`. -/
def member (f : Field) : List Char :=
  appendString f.name ++ ':' :: appendString f.value

/-- Members separated by commas. -/
def members : List Field → List Char
  | [] => []
  | [f] => member f
  | f :: g :: rest => member f ++ ',' :: members (g :: rest)

/-- Go's `json.Marshal` of a struct whose fields are strings, given in declaration order. It
has no error exit for such a value. -/
def Marshal (fs : List Field) : String :=
  ⟨'\x7b' :: (members (emitted fs) ++ ['\x7d'])⟩

end json

/-! ## A reader for JSON text

Used to say what a request body denotes. It covers the JSON this program writes:
structural characters, insignificant whitespace and string literals (RFC 8259, section 7);
numbers and the literals `true`, `false`, `null` are not read, and a `\u` escape that
names a surrogate half is not accepted. -/

namespace jsontext

inductive Tok where
  | lbrace | rbrace | lbrack | rbrack | colon | comma
  | str (s : String)
deriving DecidableEq

/-- Value of a hexadecimal digit. -/
def hexVal (c : Char) : Option Nat :=
  if '0' ≤ c ∧ c ≤ '9' then some (c.toNat - 48)
  else if 'a' ≤ c ∧ c ≤ 'f' then some (c.toNat - 87)
  else if 'A' ≤ c ∧ c ≤ 'F' then some (c.toNat - 55)
  else none

/-- The character a `\uXXXX` escape names. -/
def unicodeEscape (a b c d : Char) : Option Char :=
  match hexVal a, hexVal b, hexVal c, hexVal d with
  | some x, some y, some z, some w =>
    let n := ((x * 16 + y) * 16 + z) * 16 + w
    if 0xd800 ≤ n ∧ n ≤ 0xdfff then none else some (Char.ofNat n)
  | _, _, _, _ => none

/-- The character a two-character escape names. -/
def simpleEscape (e : Char) : Option Char :=
  if e = '\x22' then some '\x22'
  else if e = '\x5c' then some '\x5c'
  else if e = '/' then some '/'
  else if e = 'b' then some '\x08'
  else if e = 'f' then some '\x0c'
  else if e = 'n' then some '\n'
  else if e = 'r' then some '\r'
  else if e = 't' then some '\t'
  else none

def structural (c : Char) : Option Tok :=
  if c = '\x7b' then some .lbrace
  else if c = '\x7d' then some .rbrace
  else if c = '[' then some .lbrack
  else if c = ']' then some .rbrack
  else if c = ':' then some .colon
  else if c = ',' then some .comma
  else none

def isSpace (c : Char) : Bool := c = ' ' ∨ c = '\n' ∨ c = '\r' ∨ c = '\t'

/-- The tokens of a JSON text. The first argument is `none` between tokens and `some acc`
inside a string literal whose characters so far are `acc`. -/
def lex : Option (List Char) → List Char → Option (List Tok)
  | none, [] => some []
  | some _, [] => none
  | none, c :: rest =>
    if isSpace c then lex none rest
    else if c = '\x22' then lex (some []) rest
    else match structural c with
      | some t => (lex none rest).map (fun ts => t :: ts)
      | none => none
  | some acc, c :: rest =>
    if c = '\x22' then (lex none rest).map (fun ts => Tok.str ⟨acc⟩ :: ts)
    else if c = '\x5c' then
      match rest with
      | [] => none
      | e :: rest1 =>
        if e = 'u' then
          match rest1 with
          | h1 :: h2 :: h3 :: h4 :: rest2 =>
            match unicodeEscape h1 h2 h3 h4 with
            | some ch => lex (some (acc ++ [ch])) rest2
            | none => none
          | _ => none
        else
          match simpleEscape e with
          | some ch => lex (some (acc ++ [ch])) rest1
          | none => none
    else if c.toNat < 0x20 then none
    else lex (some (acc ++ [c])) rest

/-- The tokens of a request body. -/
def tokens (body : String) : Option (List Tok) := lex none body.data

end jsontext

/-! ## net/http and the workload API, as seen by the program -/

namespace http

/-- An `http.Header` restricted to single values; `Set` replaces an entry. -/
abbrev Header := List (String × String)

def Header.Set (h : Header) (key value : String) : Header :=
  h.filter (fun kv => kv.1 != key) ++ [(key, value)]

/-- Go's `Header.Get`: the value of the key, or the empty string. -/
def Header.Get (h : Header) (key : String) : String :=
  match h.find? (fun kv => kv.1 == key) with
  | some kv => kv.2
  | none => ""

/-- The parts of an `http.Request` the program sets. -/
structure Request where
  Method : String
  URL : String
  Header : Header
  Body : String
deriving DecidableEq

/-- The parts of an `http.Response` the program reads. -/
structure Response where
  StatusCode : Int
  Status : String
  Body : String
deriving DecidableEq

end http

/-- A call that leaves the process. -/
inductive Call where
  /-- Go's `workloadapi.NewJWTSource` on the given address -/
  | newJWTSource (addr : String)
  /-- Go's `JWTSource.FetchJWTSVID` for the given audience -/
  | fetchJWTSVID (audience : String)
  /-- Go's `http.Post(url, contentType, body)` -/
  | post (url contentType body : String)
  /-- Go's `http.DefaultClient.Do(req)` -/
  | send (req : http.Request)
deriving DecidableEq

/-- How the surroundings answer during one call of `Token`. A library error is given by
its text. -/
structure World where
  /-- the error of `workloadapi.NewJWTSource`, `none` when the source is created -/
  newJWTSource : String → Option String
  /-- the error of `FetchJWTSVID`, or `svid.Marshal()` -/
  fetchJWTSVID : String → Except String String
  /-- the outcome of `http.Post` -/
  post : String → String → String → Except String http.Response
  /-- the error of `http.NewRequest` for a method and URL (it parses the URL), `none`
  when the request is built -/
  newRequest : String → String → Option String
  /-- the outcome of `http.DefaultClient.Do` -/
  send : http.Request → Except String http.Response

/-! ## golang.org/x/oauth2: the token -/

namespace stdoauth2

/-- The fields of `oauth2.Token` the program sets; the others keep their zero values. -/
structure Token where
  AccessToken : String
  TokenType : String
  Expiry : time.Time
deriving DecidableEq

/-- The constant `defaultExpiryDelta`: ten seconds. -/
def defaultExpiryDelta : Int := 10 * time.Second

/-- Go's `Token.expired`, the clock reading `timeNow()` as an argument. A zero `Expiry` never
expires; otherwise the token counts as expired from `defaultExpiryDelta` before `Expiry`. -/
def Token.expired (t : Token) (now : time.Time) : Bool :=
  if t.Expiry.IsZero then false
  else (t.Expiry.Add (-defaultExpiryDelta)).Before now

/-- Go's `Token.Valid` on a possibly nil token:
`t != nil && t.AccessToken != "" && !t.expired()`. -/
def Valid (t : Option Token) (now : time.Time) : Bool :=
  match t with
  | none => false
  | some t => t.AccessToken != "" && !t.expired now

end stdoauth2

/-! ## pkg/oauth2 -/

namespace oauth2

open fmt

structure accessTokenRequest where
  GrantType : String := ""
  Audience : String := ""
  Scope : String := ""
  RequestedTokenType : String := ""
  SubjectToken : String := ""
  SubjectTokenType : String := ""
  Options : String := ""
deriving DecidableEq

/-- The `json` tags of `accessTokenRequest`, in declaration order; all say `omitempty`. -/
def accessTokenRequest.fields (r : accessTokenRequest) : List json.Field :=
  [⟨"grantType", true, r.GrantType⟩,
   ⟨"audience", true, r.Audience⟩,
   ⟨"scope", true, r.Scope⟩,
   ⟨"requestedTokenType", true, r.RequestedTokenType⟩,
   ⟨"subjectToken", true, r.SubjectToken⟩,
   ⟨"subjectTokenType", true, r.SubjectTokenType⟩,
   ⟨"options", true, r.Options⟩]

structure accessTokenResponse where
  AccessToken : String := ""
  ExpiresIn : Int := 0
  TokenType : String := ""
  IssuedTokenType : String := ""
deriving DecidableEq

structure serviceAccountTokenResponse where
  AccessToken : String := ""
  ExpireTime : String := ""
deriving DecidableEq

structure Config where
  SpiffeSocketPath : String
  Audience : String
  ServiceAccount : String
  Scope : String
deriving DecidableEq

structure spiffeTokenSource where
  spiffeSocketPath : String
  audience : String
  scope : String
  serviceAccount : String
deriving DecidableEq

/-- What `json.NewDecoder(resp.Body).Decode(token)` does to the value `token` points to,
and the error it returns. The decoder is not embedded: the two functions are parameters
of the development, like the `World`. -/
structure Decoder where
  accessToken : String → accessTokenResponse → accessTokenResponse × Option String
  serviceAccountToken :
    String → serviceAccountTokenResponse → serviceAccountTokenResponse × Option String

def DefaultAudience (projectNumber poolId providerId : String) : String :=
  Sprintf "//iam.googleapis.com/projects/%s/locations/global/workloadIdentityPools/%s/providers/%s"
    [.str projectNumber, .str poolId, .str providerId]

def DefaultConfig (serviceAccount : String) (audience : String) : Config :=
  { SpiffeSocketPath := "unix:///tmp/spire-agent/public/api.sock"
    Scope := "https://www.googleapis.com/auth/cloud-platform"
    Audience := audience
    ServiceAccount := serviceAccount }

/-- The result of a function that reports through an `error` and writes through a
pointer: the error, the value behind the pointer afterwards, and the log. -/
structure Out (α : Type) where
  err : Option GoError
  value : α
  log : List Call
deriving DecidableEq

def getSpiffeJwt (w : World) (sts : spiffeTokenSource) (log : List Call) :
    Except GoError String × List Call :=
  let log := log ++ [Call.newJWTSource sts.spiffeSocketPath]
  match w.newJWTSource sts.spiffeSocketPath with
  | some err => (.error (.errorf (Sprintf "unable to create JWTSource: %v" [.str err])), log)
  | none =>
    let log := log ++ [Call.fetchJWTSVID sts.audience]
    match w.fetchJWTSVID sts.audience with
    | .error err =>
      (.error (.errorf (Sprintf "unable to fetch jwt JWTSVID: %v" [.str err])), log)
    | .ok svid => (.ok svid, log)

/-- The request value built at the top of `getWorkloadIdentityFederationToken`. -/
def tokenRequest (sts : spiffeTokenSource) (spiffe_jwt : String) : accessTokenRequest :=
  { GrantType := "urn:ietf:params:oauth:grant-type:token-exchange"
    Audience := sts.audience
    Scope := sts.scope
    RequestedTokenType := "urn:ietf:params:oauth:token-type:access_token"
    SubjectToken := spiffe_jwt
    SubjectTokenType := "urn:ietf:params:oauth:token-type:jwt" }

def getWorkloadIdentityFederationToken (w : World) (dec : Decoder) (sts : spiffeTokenSource)
    (spiffe_jwt : String) (token : accessTokenResponse) (log : List Call) :
    Out accessTokenResponse :=
  let body := json.Marshal (tokenRequest sts spiffe_jwt).fields
  let log := log ++ [Call.post "https://sts.googleapis.com/v1/token" "application/json" body]
  match w.post "https://sts.googleapis.com/v1/token" "application/json" body with
  | .error err => ⟨some (.library err), token, log⟩
  | .ok resp =>
    if resp.StatusCode != 200 then
      ⟨some (.errorf (Sprintf "failed retrieving token: %d - %s"
        [.int resp.StatusCode, .str resp.Status])), token, log⟩
    else
      match dec.accessToken resp.Body token with
      | (token, some err) => ⟨some (.library err), token, log⟩
      | (token, none) => ⟨none, token, log⟩

/-- The request `impersonateIamServiceAccount` hands to the client: what `http.NewRequest`
returns, with the two headers set. -/
def impersonateRequest (sts : spiffeTokenSource) (wifToken : String) : http.Request :=
  let body := Sprintf "\x7b\n        \x22scope\x22: [ \x22%s\x22 ]\n    \x7d" [.str sts.scope]
  let req : http.Request :=
    { Method := "POST"
      URL := Sprintf
        "https://iamcredentials.googleapis.com/v1/projects/-/serviceAccounts/%s:generateAccessToken"
        [.str sts.serviceAccount]
      Header := []
      Body := body }
  let req := { req with Header := req.Header.Set "Content-Type" "text/json" }
  { req with Header := req.Header.Set "Authorization" (Sprintf "Bearer %s" [.str wifToken]) }

def impersonateIamServiceAccount (w : World) (dec : Decoder) (sts : spiffeTokenSource)
    (wifToken : String) (token : serviceAccountTokenResponse) (log : List Call) :
    Out serviceAccountTokenResponse :=
  let req := impersonateRequest sts wifToken
  match w.newRequest req.Method req.URL with
  | some err => ⟨some (.library err), token, log⟩
  | none =>
    let log := log ++ [Call.send req]
    match w.send req with
    | .error err => ⟨some (.library err), token, log⟩
    | .ok resp =>
      if resp.StatusCode != 200 then
        ⟨some (.errorf (Sprintf "failed retrieving token: %d - %s"
          [.int resp.StatusCode, .str resp.Status])), token, log⟩
      else
        match dec.serviceAccountToken resp.Body token with
        | (token, some err) => ⟨some (.library err), token, log⟩
        | (token, none) => ⟨none, token, log⟩

def spiffeTokenSource.Token (w : World) (dec : Decoder) (sts : spiffeTokenSource)
    (log : List Call) : Except GoError stdoauth2.Token × List Call :=
  match getSpiffeJwt w sts log with
  | (.error err, log) => (.error err, log)
  | (.ok spiffeJwt, log) =>
    match getWorkloadIdentityFederationToken w dec sts spiffeJwt {} log with
    | ⟨some err, _, log⟩ => (.error err, log)
    | ⟨none, token, log⟩ =>
      match impersonateIamServiceAccount w dec sts token.AccessToken {} log with
      | ⟨some err, _, log⟩ => (.error err, log)
      | ⟨none, saToken, log⟩ =>
        match time.Parse saToken.ExpireTime with
        | .error err => (.error err, log)
        | .ok t =>
          (.ok { AccessToken := saToken.AccessToken, Expiry := t, TokenType := "Bearer" }, log)

end oauth2

/-! ## golang.org/x/oauth2: the reusing token source -/

namespace stdoauth2

/-- The `reuseTokenSource` that `ReuseTokenSource` builds: the wrapped source `new` (the
only one this program wraps) and the cached token `t`, nil at first. The mutex makes calls
of `Token` run one after the other; one call is one step on this state. -/
structure reuseTokenSource where
  new : oauth2.spiffeTokenSource
  t : Option Token
deriving DecidableEq

def ReuseTokenSource (t : Option Token) (src : oauth2.spiffeTokenSource) : reuseTokenSource :=
  { t := t, new := src }

/-- The method `reuseTokenSource.Token`: the cached token while it is valid, else a new one
from the wrapped source, cached when that succeeds. Returns the result, the state
afterwards and the log. -/
def reuseTokenSource.Token (w : World) (dec : oauth2.Decoder) (now : time.Time)
    (s : reuseTokenSource) (log : List Call) :
    Except GoError Token × reuseTokenSource × List Call :=
  match s.t, Valid s.t now with
  | some t, true => (.ok t, s, log)
  | _, _ =>
    match s.new.Token w dec log with
    | (.error err, log) => (.error err, s, log)
    | (.ok t, log) => (.ok t, { s with t := some t }, log)

end stdoauth2

namespace oauth2

def SpiffeTokenSource (config : Config) : stdoauth2.reuseTokenSource :=
  stdoauth2.ReuseTokenSource none
    { spiffeSocketPath := config.SpiffeSocketPath
      audience := config.Audience
      scope := config.Scope
      serviceAccount := config.ServiceAccount }

end oauth2

/-! ## pkg/spiregcp -/

namespace spiregcp

def DefaultAudience (projectNumber poolId providerId : String) : String :=
  fmt.Sprintf
    "//iam.googleapis.com/projects/%s/locations/global/workloadIdentityPools/%s/providers/%s"
    [.str projectNumber, .str poolId, .str providerId]

/-- The `TokenSource` of the credentials `Credentials` returns. -/
def Credentials (serviceAccount audience : String) : stdoauth2.reuseTokenSource :=
  oauth2.SpiffeTokenSource (oauth2.DefaultConfig serviceAccount audience)

end spiregcp

/-! ## Sample surroundings

Concrete worlds on which the statements below are evaluated. -/

deriving instance DecidableEq for Except

namespace sample

open oauth2

def sts : spiffeTokenSource :=
  { spiffeSocketPath := "unix:///tmp/spire-agent/public/api.sock"
    audience := "//iam.googleapis.com/projects/42/locations/global/workloadIdentityPools/pool/providers/spire"
    scope := "https://www.googleapis.com/auth/cloud-platform"
    serviceAccount := "reader@demo.iam.gserviceaccount.com" }

/-- The same source with no audience configured. -/
def noAudience : spiffeTokenSource := { sts with audience := "" }

/-- The same source with a double quote in the scope. -/
def quotedScope : spiffeTokenSource := { sts with scope := "a\x22b" }

/-- The same source with a scope that ends in a backslash. -/
def backslashScope : spiffeTokenSource := { sts with scope := "a\x5c" }

/-- The same source with a scope that closes the string and opens another. -/
def splitScope : spiffeTokenSource := { sts with scope := "x\x22, \x22y" }

def fedBody : String :=
  "\x7b\x22access_token\x22:\x22FED1\x22,\x22expires_in\x22:3600,\x22token_type\x22:\x22Bearer\x22\x7d"

def saBody : String :=
  "\x7b\x22accessToken\x22:\x22SA1\x22,\x22expireTime\x22:\x222025-01-01T00:10:00Z\x22\x7d"

def saBodyFraction : String :=
  "\x7b\x22accessToken\x22:\x22SA1\x22,\x22expireTime\x22:\x222025-01-01T00:10:00.500Z\x22\x7d"

def saBodyOffset : String :=
  "\x7b\x22accessToken\x22:\x22SA1\x22,\x22expireTime\x22:\x222025-01-01T00:10:00+00:00\x22\x7d"

/-- A decoder that knows the sample bodies and reports a syntax error on any other. -/
def decoder : Decoder where
  accessToken body token :=
    if body = fedBody then
      ({ token with AccessToken := "FED1", ExpiresIn := 3600, TokenType := "Bearer" }, none)
    else (token, some "unexpected end of JSON input")
  serviceAccountToken body token :=
    if body = saBody then
      ({ token with AccessToken := "SA1", ExpireTime := "2025-01-01T00:10:00Z" }, none)
    else if body = saBodyFraction then
      ({ token with AccessToken := "SA1", ExpireTime := "2025-01-01T00:10:00.500Z" }, none)
    else if body = saBodyOffset then
      ({ token with AccessToken := "SA1", ExpireTime := "2025-01-01T00:10:00+00:00" }, none)
    else (token, some "unexpected end of JSON input")

/-- Every step answers well; the impersonation answers with `saBody`. -/
def world : World where
  newJWTSource _ := none
  fetchJWTSVID _ := .ok "JWT1"
  post _ _ _ := .ok ⟨200, "200 OK", fedBody⟩
  newRequest _ _ := none
  send _ := .ok ⟨200, "200 OK", saBody⟩

/-- The identity agent cannot be reached. -/
def agentDown : World :=
  { world with newJWTSource := fun _ => some "context deadline exceeded" }

/-- The exchange endpoint answers 403. -/
def exchangeForbidden : World :=
  { world with post := fun _ _ _ => .ok ⟨403, "403 Forbidden", ""⟩ }

/-- The impersonation endpoint answers 403. -/
def impersonateForbidden : World :=
  { world with send := fun _ => .ok ⟨403, "403 Forbidden", ""⟩ }

/-- The impersonation endpoint answers with fractional seconds in `expireTime`. -/
def fraction : World :=
  { world with send := fun _ => .ok ⟨200, "200 OK", saBodyFraction⟩ }

/-- The impersonation endpoint answers with a zone offset in place of `Z`. -/
def offset : World :=
  { world with send := fun _ => .ok ⟨200, "200 OK", saBodyOffset⟩ }

end sample

/-! ## Timestamps, as the specification writes them -/

namespace timestamp

/-- The character of the decimal digit `d`. -/
def digit (d : Nat) : Char := Char.ofNat (48 + d)

/-- A number below 100 in two digits. -/
def pad2 (n : Nat) : List Char := [digit (n / 10), digit (n % 10)]

/-- A number below 10000 in four digits. -/
def pad4 (n : Nat) : List Char :=
  [digit (n / 1000), digit (n / 100 % 10), digit (n / 10 % 10), digit (n % 10)]

/-- The fields of a timestamp `YYYY-MM-DDTHH:MM:SSZ`. -/
structure Civil where
  year : Nat
  month : Nat
  day : Nat
  hour : Nat
  min : Nat
  sec : Nat
deriving DecidableEq

/-- The fields name a second of a day of the calendar, in the years 0 to 9999. -/
def Civil.valid (c : Civil) : Prop :=
  c.year ≤ 9999 ∧ 1 ≤ c.month ∧ c.month ≤ 12 ∧ 1 ≤ c.day ∧
  (c.day : Int) ≤ time.daysIn c.month c.year ∧ c.hour < 24 ∧ c.min < 60 ∧ c.sec < 60

instance (c : Civil) : Decidable c.valid := by
  unfold Civil.valid
  infer_instance

/-- The text `YYYY-MM-DDTHH:MM:SS` followed by `tail`. -/
def Civil.text (c : Civil) (tail : List Char) : List Char :=
  pad4 c.year ++ ('-' :: (pad2 c.month ++ ('-' :: (pad2 c.day ++ ('T' :: (pad2 c.hour ++
    (':' :: (pad2 c.min ++ (':' :: (pad2 c.sec ++ tail))))))))))

/-- The timestamp `YYYY-MM-DDTHH:MM:SSZ`. -/
def Civil.format (c : Civil) : String := ⟨c.text ['Z']⟩

/-- The UTC instant the fields name. -/
def Civil.instant (c : Civil) : time.Time :=
  time.Date c.year c.month c.day c.hour c.min c.sec 0

def allDigits (s : List Char) : Prop := ∀ c ∈ s, time.isDigitChar c = true

instance (s : List Char) : Decidable (allDigits s) := by
  unfold allDigits
  infer_instance

/-- The number a run of digits writes. -/
def digitsValue (ds : List Char) : Int :=
  ds.foldl (fun x c => x * 10 + time.digitVal c) 0

/-- The nanoseconds a fraction with the digits `ds` stands for; digits after the ninth do
not count. -/
def fractionNanos (ds : List Char) : Int :=
  digitsValue (ds.take 9) * 10 ^ (9 - (ds.take 9).length)

/-- A fraction of a second: a period or a comma, then one or more digits. -/
def isFraction (s : List Char) : Prop :=
  ∃ sep ds, s = sep :: ds ∧ (sep = '.' ∨ sep = ',') ∧ ds ≠ [] ∧ allDigits ds

/-- The texts of the form `YYYY-MM-DDTH[H]:MM:SS[fraction]Z`: a four-digit year, a
one- or two-digit hour, two digits in the other fields, an optional fraction of a second. -/
def wideForm (s : List Char) : Prop :=
  ∃ y mo d h mi se frac,
    s = y ++ ('-' :: (mo ++ ('-' :: (d ++ ('T' :: (h ++ (':' :: (mi ++ (':' ::
          (se ++ (frac ++ ['Z']))))))))))) ∧
    y.length = 4 ∧ mo.length = 2 ∧ d.length = 2 ∧ (h.length = 1 ∨ h.length = 2) ∧
    mi.length = 2 ∧ se.length = 2 ∧
    allDigits y ∧ allDigits mo ∧ allDigits d ∧ allDigits h ∧ allDigits mi ∧ allDigits se ∧
    (frac = [] ∨ isFraction frac)

end timestamp

/-! ## Request bodies, as the specification writes them -/

namespace jsontext

/-- The tokens of the members `"k":"v"`, separated by commas. -/
def memberTokens : List (String × String) → List Tok
  | [] => []
  | [m] => [Tok.str m.1, Tok.colon, Tok.str m.2]
  | m :: n :: rest =>
    Tok.str m.1 :: Tok.colon :: Tok.str m.2 :: Tok.comma :: memberTokens (n :: rest)

/-- The tokens of the JSON object with exactly the given string members, in order. -/
def objectTokens (ms : List (String × String)) : List Tok :=
  Tok.lbrace :: (memberTokens ms ++ [Tok.rbrace])

end jsontext

namespace expected

/-- The six members of the token-exchange request. -/
def exchangeMembers (audience scope assertion : String) : List (String × String) :=
  [("grantType", "urn:ietf:params:oauth:grant-type:token-exchange"),
   ("audience", audience),
   ("scope", scope),
   ("requestedTokenType", "urn:ietf:params:oauth:token-type:access_token"),
   ("subjectToken", assertion),
   ("subjectTokenType", "urn:ietf:params:oauth:token-type:jwt")]

/-- The tokens of `\x7b"scope": [sc]\x7d`: an object whose one member `scope` holds an
array whose one element is the string `sc`. -/
def scopeTokens (sc : String) : List jsontext.Tok :=
  [.lbrace, .str "scope", .colon, .lbrack, .str sc, .rbrack, .rbrace]

/-- A character that may stand for itself inside a JSON string literal. -/
def plainChar (c : Char) : Bool := c != '\x22' && c != '\x5c' && decide (0x20 ≤ c.toNat)

end expected

/-! ## Formatting lemmas -/

section lemmas

open fmt oauth2

theorem sprintf_reject (c : Int) (status : String) :
    Sprintf "failed retrieving token: %d - %s" [.int c, .str status]
      = ⟨"failed retrieving token: ".data ++ (fmtInt c ++ (" - ".data ++ status.data))⟩ := by
  simp [Sprintf, sprintfAux, fmtArg]

theorem sprintf_jwtsource (err : String) :
    Sprintf "unable to create JWTSource: %v" [.str err]
      = ⟨"unable to create JWTSource: ".data ++ err.data⟩ := by
  simp [Sprintf, sprintfAux, fmtArg]

theorem sprintf_fetch (err : String) :
    Sprintf "unable to fetch jwt JWTSVID: %v" [.str err]
      = ⟨"unable to fetch jwt JWTSVID: ".data ++ err.data⟩ := by
  simp [Sprintf, sprintfAux, fmtArg]

theorem sprintf_audience (p q r : String) :
    Sprintf "//iam.googleapis.com/projects/%s/locations/global/workloadIdentityPools/%s/providers/%s"
        [.str p, .str q, .str r]
      = "//iam.googleapis.com/projects/" ++ p ++ "/locations/global/workloadIdentityPools/"
          ++ q ++ "/providers/" ++ r := by
  apply String.ext
  simp [Sprintf, sprintfAux, fmtArg]

/-- The calls of `getSpiffeJwt` extend the log by agent calls only, and its error is one of
the two it formats. -/
theorem getSpiffeJwt_cases (w : World) (sts : spiffeTokenSource) (log : List Call) :
    (∃ err, w.newJWTSource sts.spiffeSocketPath = some err ∧
      getSpiffeJwt w sts log =
        (.error (.errorf (Sprintf "unable to create JWTSource: %v" [.str err])),
          log ++ [Call.newJWTSource sts.spiffeSocketPath])) ∨
    (∃ err, w.newJWTSource sts.spiffeSocketPath = none ∧
      w.fetchJWTSVID sts.audience = .error err ∧
      getSpiffeJwt w sts log =
        (.error (.errorf (Sprintf "unable to fetch jwt JWTSVID: %v" [.str err])),
          log ++ [Call.newJWTSource sts.spiffeSocketPath, Call.fetchJWTSVID sts.audience])) ∨
    (∃ svid, w.newJWTSource sts.spiffeSocketPath = none ∧
      w.fetchJWTSVID sts.audience = .ok svid ∧
      getSpiffeJwt w sts log =
        (.ok svid,
          log ++ [Call.newJWTSource sts.spiffeSocketPath, Call.fetchJWTSVID sts.audience])) := by
  unfold getSpiffeJwt
  cases h1 : w.newJWTSource sts.spiffeSocketPath with
  | some err => exact Or.inl ⟨err, rfl, by simp⟩
  | none =>
    cases h2 : w.fetchJWTSVID sts.audience with
    | error err => exact Or.inr (Or.inl ⟨err, rfl, rfl, by simp⟩)
    | ok svid => exact Or.inr (Or.inr ⟨svid, rfl, rfl, by simp⟩)

/-- The URL of the STS endpoint and the content type of the exchange request. -/
theorem getWorkloadIdentityFederationToken_error (w : World) (dec : Decoder)
    (sts : spiffeTokenSource) (jwt : String) (token : accessTokenResponse) (log : List Call)
    (err : String)
    (h : w.post "https://sts.googleapis.com/v1/token" "application/json"
      (json.Marshal (tokenRequest sts jwt).fields) = .error err) :
    getWorkloadIdentityFederationToken w dec sts jwt token log =
      ⟨some (.library err), token,
        log ++ [Call.post "https://sts.googleapis.com/v1/token" "application/json"
          (json.Marshal (tokenRequest sts jwt).fields)]⟩ := by
  simp [getWorkloadIdentityFederationToken, h]

theorem getWorkloadIdentityFederationToken_rejected (w : World) (dec : Decoder)
    (sts : spiffeTokenSource) (jwt : String) (token : accessTokenResponse) (log : List Call)
    (resp : http.Response)
    (h : w.post "https://sts.googleapis.com/v1/token" "application/json"
      (json.Marshal (tokenRequest sts jwt).fields) = .ok resp)
    (hc : resp.StatusCode ≠ 200) :
    getWorkloadIdentityFederationToken w dec sts jwt token log =
      ⟨some (.errorf (Sprintf "failed retrieving token: %d - %s"
          [.int resp.StatusCode, .str resp.Status])), token,
        log ++ [Call.post "https://sts.googleapis.com/v1/token" "application/json"
          (json.Marshal (tokenRequest sts jwt).fields)]⟩ := by
  simp [getWorkloadIdentityFederationToken, h, hc]

theorem getWorkloadIdentityFederationToken_decoded (w : World) (dec : Decoder)
    (sts : spiffeTokenSource) (jwt : String) (token : accessTokenResponse) (log : List Call)
    (resp : http.Response)
    (h : w.post "https://sts.googleapis.com/v1/token" "application/json"
      (json.Marshal (tokenRequest sts jwt).fields) = .ok resp)
    (hc : resp.StatusCode = 200) :
    getWorkloadIdentityFederationToken w dec sts jwt token log =
      ⟨(dec.accessToken resp.Body token).2.map GoError.library,
        (dec.accessToken resp.Body token).1,
        log ++ [Call.post "https://sts.googleapis.com/v1/token" "application/json"
          (json.Marshal (tokenRequest sts jwt).fields)]⟩ := by
  rcases hd : dec.accessToken resp.Body token with ⟨tok, _ | e⟩ <;>
    simp [getWorkloadIdentityFederationToken, h, hc, hd]

theorem impersonateIamServiceAccount_unbuilt (w : World) (dec : Decoder)
    (sts : spiffeTokenSource) (wif : String) (token : serviceAccountTokenResponse)
    (log : List Call) (err : String)
    (h : w.newRequest (impersonateRequest sts wif).Method (impersonateRequest sts wif).URL
      = some err) :
    impersonateIamServiceAccount w dec sts wif token log = ⟨some (.library err), token, log⟩ := by
  simp [impersonateIamServiceAccount, h]

theorem impersonateIamServiceAccount_error (w : World) (dec : Decoder)
    (sts : spiffeTokenSource) (wif : String) (token : serviceAccountTokenResponse)
    (log : List Call) (err : String)
    (h : w.newRequest (impersonateRequest sts wif).Method (impersonateRequest sts wif).URL
      = none)
    (hs : w.send (impersonateRequest sts wif) = .error err) :
    impersonateIamServiceAccount w dec sts wif token log =
      ⟨some (.library err), token, log ++ [Call.send (impersonateRequest sts wif)]⟩ := by
  simp [impersonateIamServiceAccount, h, hs]

theorem impersonateIamServiceAccount_rejected (w : World) (dec : Decoder)
    (sts : spiffeTokenSource) (wif : String) (token : serviceAccountTokenResponse)
    (log : List Call) (resp : http.Response)
    (h : w.newRequest (impersonateRequest sts wif).Method (impersonateRequest sts wif).URL
      = none)
    (hs : w.send (impersonateRequest sts wif) = .ok resp)
    (hc : resp.StatusCode ≠ 200) :
    impersonateIamServiceAccount w dec sts wif token log =
      ⟨some (.errorf (Sprintf "failed retrieving token: %d - %s"
          [.int resp.StatusCode, .str resp.Status])), token,
        log ++ [Call.send (impersonateRequest sts wif)]⟩ := by
  simp [impersonateIamServiceAccount, h, hs, hc]

theorem impersonateIamServiceAccount_decoded (w : World) (dec : Decoder)
    (sts : spiffeTokenSource) (wif : String) (token : serviceAccountTokenResponse)
    (log : List Call) (resp : http.Response)
    (h : w.newRequest (impersonateRequest sts wif).Method (impersonateRequest sts wif).URL
      = none)
    (hs : w.send (impersonateRequest sts wif) = .ok resp)
    (hc : resp.StatusCode = 200) :
    impersonateIamServiceAccount w dec sts wif token log =
      ⟨(dec.serviceAccountToken resp.Body token).2.map GoError.library,
        (dec.serviceAccountToken resp.Body token).1,
        log ++ [Call.send (impersonateRequest sts wif)]⟩ := by
  rcases hd : dec.serviceAccountToken resp.Body token with ⟨tok, _ | e⟩ <;>
    simp [impersonateIamServiceAccount, h, hs, hc, hd]

/-- The exchange step always makes exactly one call, the POST to the STS endpoint. -/
theorem getWorkloadIdentityFederationToken_log (w : World) (dec : Decoder)
    (sts : spiffeTokenSource) (jwt : String) (token : accessTokenResponse) (log : List Call) :
    (getWorkloadIdentityFederationToken w dec sts jwt token log).log =
      log ++ [Call.post "https://sts.googleapis.com/v1/token" "application/json"
        (json.Marshal (tokenRequest sts jwt).fields)] := by
  cases h : w.post "https://sts.googleapis.com/v1/token" "application/json"
      (json.Marshal (tokenRequest sts jwt).fields) with
  | error err => rw [getWorkloadIdentityFederationToken_error w dec sts jwt token log err h]
  | ok resp =>
    by_cases hc : resp.StatusCode = 200
    · rw [getWorkloadIdentityFederationToken_decoded w dec sts jwt token log resp h hc]
    · rw [getWorkloadIdentityFederationToken_rejected w dec sts jwt token log resp h hc]

/-- The impersonation step makes at most one call, the request to the IAM endpoint. -/
theorem impersonateIamServiceAccount_log (w : World) (dec : Decoder)
    (sts : spiffeTokenSource) (wif : String) (token : serviceAccountTokenResponse)
    (log : List Call) :
    (impersonateIamServiceAccount w dec sts wif token log).log = log ∨
    (impersonateIamServiceAccount w dec sts wif token log).log =
      log ++ [Call.send (impersonateRequest sts wif)] := by
  cases h : w.newRequest (impersonateRequest sts wif).Method (impersonateRequest sts wif).URL with
  | some err =>
    rw [impersonateIamServiceAccount_unbuilt w dec sts wif token log err h]; exact Or.inl rfl
  | none =>
    right
    cases hs : w.send (impersonateRequest sts wif) with
    | error err => rw [impersonateIamServiceAccount_error w dec sts wif token log err h hs]
    | ok resp =>
      by_cases hc : resp.StatusCode = 200
      · rw [impersonateIamServiceAccount_decoded w dec sts wif token log resp h hs hc]
      · rw [impersonateIamServiceAccount_rejected w dec sts wif token log resp h hs hc]

end lemmas

section pipeline

open fmt oauth2

theorem Token_of_fetch_error (w : World) (dec : Decoder) (sts : spiffeTokenSource)
    (log l1 : List Call) (e : GoError) (h : getSpiffeJwt w sts log = (.error e, l1)) :
    sts.Token w dec log = (.error e, l1) := by
  simp [spiffeTokenSource.Token, h]

theorem Token_of_exchange_error (w : World) (dec : Decoder) (sts : spiffeTokenSource)
    (log l1 l2 : List Call) (jwt : String) (e : GoError) (tok : accessTokenResponse)
    (h : getSpiffeJwt w sts log = (.ok jwt, l1))
    (hx : getWorkloadIdentityFederationToken w dec sts jwt {} l1 = ⟨some e, tok, l2⟩) :
    sts.Token w dec log = (.error e, l2) := by
  simp [spiffeTokenSource.Token, h, hx]

theorem Token_of_impersonate_error (w : World) (dec : Decoder) (sts : spiffeTokenSource)
    (log l1 l2 l3 : List Call) (jwt : String) (e : GoError) (fed : accessTokenResponse)
    (sa : serviceAccountTokenResponse)
    (h : getSpiffeJwt w sts log = (.ok jwt, l1))
    (hx : getWorkloadIdentityFederationToken w dec sts jwt {} l1 = ⟨none, fed, l2⟩)
    (hi : impersonateIamServiceAccount w dec sts fed.AccessToken {} l2 = ⟨some e, sa, l3⟩) :
    sts.Token w dec log = (.error e, l3) := by
  simp [spiffeTokenSource.Token, h, hx, hi]

theorem Token_of_steps (w : World) (dec : Decoder) (sts : spiffeTokenSource)
    (log l1 l2 l3 : List Call) (jwt : String) (fed : accessTokenResponse)
    (sa : serviceAccountTokenResponse)
    (h : getSpiffeJwt w sts log = (.ok jwt, l1))
    (hx : getWorkloadIdentityFederationToken w dec sts jwt {} l1 = ⟨none, fed, l2⟩)
    (hi : impersonateIamServiceAccount w dec sts fed.AccessToken {} l2 = ⟨none, sa, l3⟩) :
    sts.Token w dec log =
      match time.Parse sa.ExpireTime with
      | .error err => (.error err, l3)
      | .ok t => (.ok { AccessToken := sa.AccessToken, Expiry := t, TokenType := "Bearer" }, l3) := by
  simp [spiffeTokenSource.Token, h, hx, hi]

/-- A token comes out of `Token` only through the success exit of every step. -/
theorem Token_ok_inv (w : World) (dec : Decoder) (sts : spiffeTokenSource)
    (log lf : List Call) (t : stdoauth2.Token) (h : sts.Token w dec log = (.ok t, lf)) :
    ∃ jwt l1 fed l2 sa,
      getSpiffeJwt w sts log = (.ok jwt, l1) ∧
      getWorkloadIdentityFederationToken w dec sts jwt {} l1 = ⟨none, fed, l2⟩ ∧
      impersonateIamServiceAccount w dec sts fed.AccessToken {} l2 = ⟨none, sa, lf⟩ ∧
      time.Parse sa.ExpireTime = .ok t.Expiry ∧
      t = { AccessToken := sa.AccessToken, Expiry := t.Expiry, TokenType := "Bearer" } := by
  rcases h1 : getSpiffeJwt w sts log with ⟨_ | jwt, l1⟩
  · rw [Token_of_fetch_error w dec sts log l1 _ h1] at h; simp at h
  · rcases hx : getWorkloadIdentityFederationToken w dec sts jwt {} l1 with ⟨_ | e, fed, l2⟩
    · rcases hi : impersonateIamServiceAccount w dec sts fed.AccessToken {} l2
        with ⟨_ | e, sa, l3⟩
      · rw [Token_of_steps w dec sts log l1 l2 l3 jwt fed sa h1 hx hi] at h
        cases hp : time.Parse sa.ExpireTime with
        | error err => rw [hp] at h; simp at h
        | ok u =>
          rw [hp] at h
          simp only [Prod.mk.injEq, Except.ok.injEq] at h
          obtain ⟨ht, hl⟩ := h
          subst hl
          subst ht
          exact ⟨jwt, l1, fed, l2, sa, rfl, hx, hi, hp, rfl⟩
      · rw [Token_of_impersonate_error w dec sts log l1 l2 l3 jwt e fed sa h1 hx hi] at h
        simp at h
    · rw [Token_of_exchange_error w dec sts log l1 l2 jwt e fed h1 hx] at h; simp at h

theorem getSpiffeJwt_ok_log (w : World) (sts : spiffeTokenSource) (log l1 : List Call)
    (jwt : String) (h : getSpiffeJwt w sts log = (.ok jwt, l1)) :
    l1 = log ++ [Call.newJWTSource sts.spiffeSocketPath, Call.fetchJWTSVID sts.audience] := by
  rcases getSpiffeJwt_cases w sts log with ⟨err, _, h'⟩ | ⟨err, _, _, h'⟩ | ⟨svid, _, _, h'⟩
  · rw [h'] at h; simp at h
  · rw [h'] at h; simp at h
  · rw [h'] at h; simp at h; exact h.2.symm

theorem getSpiffeJwt_error_log (w : World) (sts : spiffeTokenSource) (log l1 : List Call)
    (e : GoError) (h : getSpiffeJwt w sts log = (.error e, l1)) :
    l1 = log ++ [Call.newJWTSource sts.spiffeSocketPath] ∨
    l1 = log ++ [Call.newJWTSource sts.spiffeSocketPath, Call.fetchJWTSVID sts.audience] := by
  rcases getSpiffeJwt_cases w sts log with ⟨err, _, h'⟩ | ⟨err, _, _, h'⟩ | ⟨svid, _, _, h'⟩
  · rw [h'] at h; simp at h; exact Or.inl h.2.symm
  · rw [h'] at h; simp at h; exact Or.inr h.2.symm
  · rw [h'] at h; simp at h

/-- A successful impersonation step has sent its request. -/
theorem impersonateIamServiceAccount_ok_log (w : World) (dec : Decoder)
    (sts : spiffeTokenSource) (wif : String) (token sa : serviceAccountTokenResponse)
    (log l3 : List Call)
    (h : impersonateIamServiceAccount w dec sts wif token log = ⟨none, sa, l3⟩) :
    l3 = log ++ [Call.send (impersonateRequest sts wif)] := by
  cases hn : w.newRequest (impersonateRequest sts wif).Method (impersonateRequest sts wif).URL with
  | some err =>
    rw [impersonateIamServiceAccount_unbuilt w dec sts wif token log err hn] at h
    simp at h
  | none =>
    cases hs : w.send (impersonateRequest sts wif) with
    | error err =>
      rw [impersonateIamServiceAccount_error w dec sts wif token log err hn hs] at h
      simp at h
    | ok resp =>
      by_cases hc : resp.StatusCode = 200
      · rw [impersonateIamServiceAccount_decoded w dec sts wif token log resp hn hs hc] at h
        simp at h; exact h.2.2.symm
      · rw [impersonateIamServiceAccount_rejected w dec sts wif token log resp hn hs hc] at h
        simp at h

end pipeline

/-- C1: `Token` runs the fetch, the exchange and the impersonation in that order and stops
at the first failure. If the fetch fails, `Token` returns its error and only agent calls
were made; if the fetch succeeds and the exchange fails, `Token` returns the exchange's
error and the calls made are the two agent calls and the POST, no impersonation request;
and when `Token` returns a token, every step has succeeded, the timestamp has parsed, and
the calls made are the two agent calls, the POST and the impersonation request, in that
order. -/
theorem C1_token_stops_at_first_failure (w : World) (dec : oauth2.Decoder)
    (sts : oauth2.spiffeTokenSource) (log : List Call) :
    (∀ e l1, oauth2.getSpiffeJwt w sts log = (.error e, l1) →
      sts.Token w dec log = (.error e, l1) ∧
      (l1 = log ++ [Call.newJWTSource sts.spiffeSocketPath] ∨
       l1 = log ++ [Call.newJWTSource sts.spiffeSocketPath, Call.fetchJWTSVID sts.audience])) ∧
    (∀ jwt l1 e tok l2, oauth2.getSpiffeJwt w sts log = (.ok jwt, l1) →
      oauth2.getWorkloadIdentityFederationToken w dec sts jwt {} l1 = ⟨some e, tok, l2⟩ →
      sts.Token w dec log = (.error e, l2) ∧
      l2 = log ++ [Call.newJWTSource sts.spiffeSocketPath, Call.fetchJWTSVID sts.audience,
        Call.post "https://sts.googleapis.com/v1/token" "application/json"
          (json.Marshal (oauth2.tokenRequest sts jwt).fields)]) ∧
    (∀ t lf, sts.Token w dec log = (.ok t, lf) →
      ∃ jwt l1 fed l2 sa,
        oauth2.getSpiffeJwt w sts log = (.ok jwt, l1) ∧
        oauth2.getWorkloadIdentityFederationToken w dec sts jwt {} l1 = ⟨none, fed, l2⟩ ∧
        oauth2.impersonateIamServiceAccount w dec sts fed.AccessToken {} l2 = ⟨none, sa, lf⟩ ∧
        time.Parse sa.ExpireTime = .ok t.Expiry ∧
        lf = log ++ [Call.newJWTSource sts.spiffeSocketPath, Call.fetchJWTSVID sts.audience,
          Call.post "https://sts.googleapis.com/v1/token" "application/json"
            (json.Marshal (oauth2.tokenRequest sts jwt).fields),
          Call.send (oauth2.impersonateRequest sts fed.AccessToken)]) := by
  refine ⟨?_, ?_, ?_⟩
  · intro e l1 h
    exact ⟨Token_of_fetch_error w dec sts log l1 e h, getSpiffeJwt_error_log w sts log l1 e h⟩
  · intro jwt l1 e tok l2 h hx
    refine ⟨Token_of_exchange_error w dec sts log l1 l2 jwt e tok h hx, ?_⟩
    have hl := getWorkloadIdentityFederationToken_log w dec sts jwt {} l1
    rw [hx] at hl
    simp only at hl
    rw [hl, getSpiffeJwt_ok_log w sts log l1 jwt h]
    simp
  · intro t lf h
    obtain ⟨jwt, l1, fed, l2, sa, h1, hx, hi, hp, _⟩ := Token_ok_inv w dec sts log lf t h
    refine ⟨jwt, l1, fed, l2, sa, h1, hx, hi, hp, ?_⟩
    have hl := getWorkloadIdentityFederationToken_log w dec sts jwt {} l1
    rw [hx] at hl
    simp only at hl
    rw [impersonateIamServiceAccount_ok_log w dec sts fed.AccessToken {} sa l2 lf hi, hl,
      getSpiffeJwt_ok_log w sts log l1 jwt h1]
    simp

/-- C1 at the sample world whose exchange endpoint answers 403 Forbidden. -/
theorem C1_token_stops_at_first_failure_witness :
    oauth2.getSpiffeJwt sample.exchangeForbidden sample.sts [] =
      (.ok "JWT1", [Call.newJWTSource sample.sts.spiffeSocketPath,
        Call.fetchJWTSVID sample.sts.audience]) ∧
    sample.sts.Token sample.exchangeForbidden sample.decoder [] =
      (.error (.errorf "failed retrieving token: 403 - 403 Forbidden"),
        [Call.newJWTSource sample.sts.spiffeSocketPath, Call.fetchJWTSVID sample.sts.audience,
         Call.post "https://sts.googleapis.com/v1/token" "application/json"
          (json.Marshal (oauth2.tokenRequest sample.sts "JWT1").fields)]) :=
  ⟨by decide,
   ((C1_token_stops_at_first_failure sample.exchangeForbidden sample.decoder sample.sts []).2.1
      "JWT1" [Call.newJWTSource sample.sts.spiffeSocketPath,
        Call.fetchJWTSVID sample.sts.audience]
      (.errorf "failed retrieving token: 403 - 403 Forbidden") {}
      [Call.newJWTSource sample.sts.spiffeSocketPath, Call.fetchJWTSVID sample.sts.audience,
         Call.post "https://sts.googleapis.com/v1/token" "application/json"
          (json.Marshal (oauth2.tokenRequest sample.sts "JWT1").fields)]
      (by decide) (by decide)).1⟩

/-- C5: each of the two HTTP steps turns every answer whose status code is not 200 into an
error, without touching the value behind the output pointer; the message of the error
contains the decimal numeral of the status code and the status text. With status 200 the
step returns what the decoder returns, never an error of that kind. -/
theorem C5_non200_is_rejected (w : World) (dec : oauth2.Decoder)
    (sts : oauth2.spiffeTokenSource) (log : List Call) (resp : http.Response) :
    (∀ jwt token,
      w.post "https://sts.googleapis.com/v1/token" "application/json"
        (json.Marshal (oauth2.tokenRequest sts jwt).fields) = .ok resp →
      (resp.StatusCode ≠ 200 →
        ∃ msg : String,
          (oauth2.getWorkloadIdentityFederationToken w dec sts jwt token log).err
            = some (.errorf msg) ∧
          (oauth2.getWorkloadIdentityFederationToken w dec sts jwt token log).value = token ∧
          fmt.fmtInt resp.StatusCode <:+: msg.data ∧ resp.Status.data <:+: msg.data) ∧
      (resp.StatusCode = 200 →
        (oauth2.getWorkloadIdentityFederationToken w dec sts jwt token log).value
            = (dec.accessToken resp.Body token).1 ∧
        (oauth2.getWorkloadIdentityFederationToken w dec sts jwt token log).err
            = (dec.accessToken resp.Body token).2.map GoError.library ∧
        ∀ msg, (oauth2.getWorkloadIdentityFederationToken w dec sts jwt token log).err
            ≠ some (.errorf msg))) ∧
    (∀ wif token,
      w.newRequest (oauth2.impersonateRequest sts wif).Method
        (oauth2.impersonateRequest sts wif).URL = none →
      w.send (oauth2.impersonateRequest sts wif) = .ok resp →
      (resp.StatusCode ≠ 200 →
        ∃ msg : String,
          (oauth2.impersonateIamServiceAccount w dec sts wif token log).err
            = some (.errorf msg) ∧
          (oauth2.impersonateIamServiceAccount w dec sts wif token log).value = token ∧
          fmt.fmtInt resp.StatusCode <:+: msg.data ∧ resp.Status.data <:+: msg.data) ∧
      (resp.StatusCode = 200 →
        (oauth2.impersonateIamServiceAccount w dec sts wif token log).value
            = (dec.serviceAccountToken resp.Body token).1 ∧
        (oauth2.impersonateIamServiceAccount w dec sts wif token log).err
            = (dec.serviceAccountToken resp.Body token).2.map GoError.library ∧
        ∀ msg, (oauth2.impersonateIamServiceAccount w dec sts wif token log).err
            ≠ some (.errorf msg))) := by
  have hmsg : ∀ (c : Int) (status : String),
      fmt.fmtInt c <:+: (fmt.Sprintf "failed retrieving token: %d - %s"
        [.int c, .str status]).data ∧
      status.data <:+: (fmt.Sprintf "failed retrieving token: %d - %s"
        [.int c, .str status]).data := by
    intro c status
    rw [sprintf_reject]
    refine ⟨⟨"failed retrieving token: ".data, " - ".data ++ status.data, by simp⟩,
      ⟨"failed retrieving token: ".data ++ (fmt.fmtInt c ++ " - ".data), [], by simp⟩⟩
  refine ⟨?_, ?_⟩
  · intro jwt token h
    refine ⟨fun hc => ?_, fun hc => ?_⟩
    · rw [getWorkloadIdentityFederationToken_rejected w dec sts jwt token log resp h hc]
      exact ⟨_, rfl, rfl, hmsg _ _⟩
    · rw [getWorkloadIdentityFederationToken_decoded w dec sts jwt token log resp h hc]
      refine ⟨rfl, rfl, ?_⟩
      intro msg
      cases (dec.accessToken resp.Body token).2 <;> simp
  · intro wif token hn h
    refine ⟨fun hc => ?_, fun hc => ?_⟩
    · rw [impersonateIamServiceAccount_rejected w dec sts wif token log resp hn h hc]
      exact ⟨_, rfl, rfl, hmsg _ _⟩
    · rw [impersonateIamServiceAccount_decoded w dec sts wif token log resp hn h hc]
      refine ⟨rfl, rfl, ?_⟩
      intro msg
      cases (dec.serviceAccountToken resp.Body token).2 <;> simp

/-- C5 at the sample world whose exchange endpoint answers 403 Forbidden: the message
contains `403` and `403 Forbidden`. -/
theorem C5_non200_is_rejected_witness :
    sample.exchangeForbidden.post "https://sts.googleapis.com/v1/token" "application/json"
        (json.Marshal (oauth2.tokenRequest sample.sts "JWT1").fields)
      = .ok ⟨403, "403 Forbidden", ""⟩ ∧
    (403 : Int) ≠ 200 ∧
    ∃ msg : String,
      (oauth2.getWorkloadIdentityFederationToken sample.exchangeForbidden sample.decoder
        sample.sts "JWT1" {} []).err = some (.errorf msg) ∧
      (oauth2.getWorkloadIdentityFederationToken sample.exchangeForbidden sample.decoder
        sample.sts "JWT1" {} []).value = {} ∧
      "403".data <:+: msg.data ∧ "403 Forbidden".data <:+: msg.data :=
  ⟨rfl, by decide,
   ((C5_non200_is_rejected sample.exchangeForbidden sample.decoder sample.sts []
      ⟨403, "403 Forbidden", ""⟩).1 "JWT1" {} rfl).1 (by decide)⟩

/-- C7, as the claim states it, fails: rejected with 403 Forbidden, the exchange step and
the impersonation step return the same error. -/
theorem C7_same_error_counterexample :
    (oauth2.getWorkloadIdentityFederationToken sample.exchangeForbidden sample.decoder
        sample.sts "JWT1" {} []).err
      = (oauth2.impersonateIamServiceAccount sample.impersonateForbidden sample.decoder
        sample.sts "FED1" {} []).err ∧
    (sample.sts.Token sample.exchangeForbidden sample.decoder []).1
      = (sample.sts.Token sample.impersonateForbidden sample.decoder []).1 := by
  decide

/-- C7, amended: rejected with the same status code and status text, the exchange step and
the impersonation step return the same error, so the error does not tell the two apart;
that error differs from every error of the identity-agent step. -/
theorem C7_rejections_coincide (w1 w2 w3 : World) (dec : oauth2.Decoder)
    (sts sts3 : oauth2.spiffeTokenSource) (jwt wif : String)
    (tok1 : oauth2.accessTokenResponse) (tok2 : oauth2.serviceAccountTokenResponse)
    (log1 log2 log3 : List Call) (r1 r2 : http.Response)
    (h1 : w1.post "https://sts.googleapis.com/v1/token" "application/json"
      (json.Marshal (oauth2.tokenRequest sts jwt).fields) = .ok r1)
    (hn : w2.newRequest (oauth2.impersonateRequest sts wif).Method
      (oauth2.impersonateRequest sts wif).URL = none)
    (h2 : w2.send (oauth2.impersonateRequest sts wif) = .ok r2)
    (hc : r1.StatusCode ≠ 200) (hcode : r2.StatusCode = r1.StatusCode)
    (hstatus : r2.Status = r1.Status) :
    (oauth2.getWorkloadIdentityFederationToken w1 dec sts jwt tok1 log1).err
      = (oauth2.impersonateIamServiceAccount w2 dec sts wif tok2 log2).err ∧
    ∀ e, (oauth2.getSpiffeJwt w3 sts3 log3).1 = .error e →
      some e ≠ (oauth2.getWorkloadIdentityFederationToken w1 dec sts jwt tok1 log1).err := by
  rw [getWorkloadIdentityFederationToken_rejected w1 dec sts jwt tok1 log1 r1 h1 hc,
    impersonateIamServiceAccount_rejected w2 dec sts wif tok2 log2 r2 hn h2 (hcode ▸ hc),
    hcode, hstatus]
  refine ⟨rfl, ?_⟩
  intro e he
  rcases getSpiffeJwt_cases w3 sts3 log3 with ⟨err, _, h'⟩ | ⟨err, _, _, h'⟩ | ⟨svid, _, _, h'⟩
  · rw [h'] at he
    simp only [Except.error.injEq] at he
    subst he
    rw [sprintf_jwtsource, sprintf_reject]
    intro h
    simp only [Option.some.injEq, GoError.errorf.injEq] at h
    have hd := congrArg String.data h
    simp at hd
  · rw [h'] at he
    simp only [Except.error.injEq] at he
    subst he
    rw [sprintf_fetch, sprintf_reject]
    intro h
    simp only [Option.some.injEq, GoError.errorf.injEq] at h
    have hd := congrArg String.data h
    simp at hd
  · rw [h'] at he; simp at he

/-- C7 amended, at the two sample worlds that answer 403 Forbidden and the one whose agent
is down. -/
theorem C7_rejections_coincide_witness :
    (oauth2.getWorkloadIdentityFederationToken sample.exchangeForbidden sample.decoder
        sample.sts "JWT1" {} []).err
      = (oauth2.impersonateIamServiceAccount sample.impersonateForbidden sample.decoder
        sample.sts "FED1" {} []).err ∧
    ∀ e, (oauth2.getSpiffeJwt sample.agentDown sample.sts []).1 = .error e →
      some e ≠ (oauth2.getWorkloadIdentityFederationToken sample.exchangeForbidden
        sample.decoder sample.sts "JWT1" {} []).err :=
  C7_rejections_coincide sample.exchangeForbidden sample.impersonateForbidden sample.agentDown
    sample.decoder sample.sts sample.sts "JWT1" "FED1" {} {} [] [] []
    ⟨403, "403 Forbidden", ""⟩ ⟨403, "403 Forbidden", ""⟩ rfl rfl rfl (by decide) rfl rfl

/-- C10: both `DefaultAudience` helpers return the audience path built from the three
identifiers, hence agree on every input. -/
theorem C10_default_audience (projectNumber poolId providerId : String) :
    spiregcp.DefaultAudience projectNumber poolId providerId
      = "//iam.googleapis.com/projects/" ++ projectNumber
          ++ "/locations/global/workloadIdentityPools/" ++ poolId
          ++ "/providers/" ++ providerId ∧
    oauth2.DefaultAudience projectNumber poolId providerId
      = "//iam.googleapis.com/projects/" ++ projectNumber
          ++ "/locations/global/workloadIdentityPools/" ++ poolId
          ++ "/providers/" ++ providerId ∧
    spiregcp.DefaultAudience projectNumber poolId providerId
      = oauth2.DefaultAudience projectNumber poolId providerId := by
  refine ⟨?_, ?_, rfl⟩
  · exact sprintf_audience projectNumber poolId providerId
  · exact sprintf_audience projectNumber poolId providerId

section reuse

open stdoauth2

/-- A valid cache is returned as it is, with no call. -/
theorem reuse_valid (w : World) (dec : oauth2.Decoder) (now : time.Time)
    (s : reuseTokenSource) (log : List Call) (t : Token)
    (hs : s.t = some t) (hv : Valid (some t) now = true) :
    s.Token w dec now log = (.ok t, s, log) := by
  simp [reuseTokenSource.Token, hs, hv]

/-- Without a valid cache the wrapped source is asked. -/
theorem reuse_refresh (w : World) (dec : oauth2.Decoder) (now : time.Time)
    (s : reuseTokenSource) (log : List Call) (hv : Valid s.t now = false) :
    s.Token w dec now log =
      match s.new.Token w dec log with
      | (.error err, log) => (.error err, s, log)
      | (.ok t, log) => (.ok t, { s with t := some t }, log) := by
  unfold reuseTokenSource.Token
  cases hs : s.t with
  | none => simp
  | some t => rw [hs] at hv; simp [hv]

/-- Ten seconds or more before its expiry a token has not expired. -/
theorem not_expired_of_early (t : Token) (now : time.Time)
    (h : now.ns + 10 * time.Second ≤ t.Expiry.ns) : t.expired now = false := by
  unfold Token.expired
  split
  · rfl
  · simp only [time.Time.Before, time.Time.Add, defaultExpiryDelta, decide_eq_false_iff_not]
    omega

/-- An invalid cache stays invalid as the clock advances. -/
theorem invalid_mono (c : Option Token) (now now2 : time.Time)
    (hv : Valid c now = false) (hle : now.ns ≤ now2.ns) : Valid c now2 = false := by
  cases c with
  | none => rfl
  | some t =>
    simp only [Valid, Token.expired, time.Time.Before, time.Time.Add] at hv ⊢
    by_cases ha : t.AccessToken = ""
    · simp [ha]
    · by_cases hz : t.Expiry.IsZero = true
      · simp [ha, hz] at hv
      · simp only [hz] at hv ⊢
        simp [ha] at hv ⊢
        omega

/-- The first call `Token` makes is the one that opens the JWT source. -/
theorem Token_log_head (w : World) (dec : oauth2.Decoder) (sts : oauth2.spiffeTokenSource)
    (log : List Call) :
    ∃ more, (sts.Token w dec log).2 = log ++ Call.newJWTSource sts.spiffeSocketPath :: more := by
  rcases h1 : oauth2.getSpiffeJwt w sts log with ⟨e | jwt, l1⟩
  · rw [Token_of_fetch_error w dec sts log l1 e h1]
    rcases getSpiffeJwt_error_log w sts log l1 e h1 with h | h
    · exact ⟨[], h⟩
    · exact ⟨[Call.fetchJWTSVID sts.audience], h⟩
  · have hl1 := getSpiffeJwt_ok_log w sts log l1 jwt h1
    rcases hx : oauth2.getWorkloadIdentityFederationToken w dec sts jwt {} l1
      with ⟨_ | e, fed, l2⟩
    · have hl2 := getWorkloadIdentityFederationToken_log w dec sts jwt {} l1
      rw [hx] at hl2
      simp only at hl2
      rcases hi : oauth2.impersonateIamServiceAccount w dec sts fed.AccessToken {} l2
        with ⟨_ | e, sa, l3⟩
      · have hl3 := impersonateIamServiceAccount_ok_log w dec sts fed.AccessToken {} sa l2 l3 hi
        rw [Token_of_steps w dec sts log l1 l2 l3 jwt fed sa h1 hx hi]
        refine ⟨[Call.fetchJWTSVID sts.audience,
          Call.post "https://sts.googleapis.com/v1/token" "application/json"
            (json.Marshal (oauth2.tokenRequest sts jwt).fields),
          Call.send (oauth2.impersonateRequest sts fed.AccessToken)], ?_⟩
        cases time.Parse sa.ExpireTime <;> simp [hl3, hl2, hl1]
      · rw [Token_of_impersonate_error w dec sts log l1 l2 l3 jwt e fed sa h1 hx hi]
        have hl3 := impersonateIamServiceAccount_log w dec sts fed.AccessToken {} l2
        rw [hi] at hl3
        simp only at hl3
        rcases hl3 with hl3 | hl3
        · exact ⟨[Call.fetchJWTSVID sts.audience,
            Call.post "https://sts.googleapis.com/v1/token" "application/json"
              (json.Marshal (oauth2.tokenRequest sts jwt).fields)], by simp [hl3, hl2, hl1]⟩
        · exact ⟨[Call.fetchJWTSVID sts.audience,
            Call.post "https://sts.googleapis.com/v1/token" "application/json"
              (json.Marshal (oauth2.tokenRequest sts jwt).fields),
            Call.send (oauth2.impersonateRequest sts fed.AccessToken)],
            by simp [hl3, hl2, hl1]⟩
    · rw [Token_of_exchange_error w dec sts log l1 l2 jwt e fed h1 hx]
      have hl2 := getWorkloadIdentityFederationToken_log w dec sts jwt {} l1
      rw [hx] at hl2
      simp only at hl2
      exact ⟨[Call.fetchJWTSVID sts.audience,
        Call.post "https://sts.googleapis.com/v1/token" "application/json"
          (json.Marshal (oauth2.tokenRequest sts jwt).fields)], by simp [hl2, hl1]⟩

/-- A call of `Token` that returns a token has made the four calls, in order. -/
theorem Token_ok_calls (w : World) (dec : oauth2.Decoder) (sts : oauth2.spiffeTokenSource)
    (log lf : List Call) (t : Token) (h : sts.Token w dec log = (.ok t, lf)) :
    ∃ jwt fed,
      lf = log ++ [Call.newJWTSource sts.spiffeSocketPath, Call.fetchJWTSVID sts.audience,
        Call.post "https://sts.googleapis.com/v1/token" "application/json"
          (json.Marshal (oauth2.tokenRequest sts jwt).fields),
        Call.send (oauth2.impersonateRequest sts fed)] := by
  obtain ⟨jwt, l1, fed, l2, sa, h1, hx, hi, _, _⟩ := Token_ok_inv w dec sts log lf t h
  refine ⟨jwt, fed.AccessToken, ?_⟩
  have hl := getWorkloadIdentityFederationToken_log w dec sts jwt {} l1
  rw [hx] at hl
  simp only at hl
  rw [impersonateIamServiceAccount_ok_log w dec sts fed.AccessToken {} sa l2 lf hi, hl,
    getSpiffeJwt_ok_log w sts log l1 jwt h1]
  simp

end reuse

/-- C3, as the claim states it, fails: five seconds before its expiry a cached token is no
longer returned; the wrapped source is asked, the four calls are made and the new token
replaces the cached one. -/
theorem C3_refresh_before_expiry_counterexample :
    (time.Date 2025 1 1 0 9 55 0).Before (time.Date 2025 1 1 0 10 0 0) = true ∧
    stdoauth2.reuseTokenSource.Token sample.world sample.decoder (time.Date 2025 1 1 0 9 55 0)
        ⟨sample.sts, some ⟨"OLD", "Bearer", time.Date 2025 1 1 0 10 0 0⟩⟩ []
      = (.ok ⟨"SA1", "Bearer", time.Date 2025 1 1 0 10 0 0⟩,
         ⟨sample.sts, some ⟨"SA1", "Bearer", time.Date 2025 1 1 0 10 0 0⟩⟩,
         [Call.newJWTSource sample.sts.spiffeSocketPath, Call.fetchJWTSVID sample.sts.audience,
          Call.post "https://sts.googleapis.com/v1/token" "application/json"
            (json.Marshal (oauth2.tokenRequest sample.sts "JWT1").fields),
          Call.send (oauth2.impersonateRequest sample.sts "FED1")]) := by
  constructor
  · decide
  · decide

/-- C3, amended: a cached token with a non-empty access token is returned unchanged, with
no call at all, whenever the clock is at least ten seconds before its expiry. So when the
first `Token` call on the source `SpiffeTokenSource` builds has returned a token with a
non-empty access token and the second call comes at least ten seconds before that token
expires, the second call returns the same token, leaves the cache as it is and makes no
call: the log still holds one agent source call, one fetch, one POST and one impersonation
request. -/
theorem C3_cached_token_reused (w1 w2 : World) (dec1 dec2 : oauth2.Decoder)
    (now1 now2 : time.Time) :
    (∀ (s : stdoauth2.reuseTokenSource) (t : stdoauth2.Token) (log : List Call),
      s.t = some t → t.AccessToken ≠ "" → now2.ns + 10 * time.Second ≤ t.Expiry.ns →
      s.Token w2 dec2 now2 log = (.ok t, s, log)) ∧
    (∀ (config : oauth2.Config) (tok : stdoauth2.Token) (s1 : stdoauth2.reuseTokenSource)
      (log1 : List Call),
      (oauth2.SpiffeTokenSource config).Token w1 dec1 now1 [] = (.ok tok, s1, log1) →
      tok.AccessToken ≠ "" → now2.ns + 10 * time.Second ≤ tok.Expiry.ns →
      s1.Token w2 dec2 now2 log1 = (.ok tok, s1, log1) ∧
      ∃ jwt fed,
        log1 = [Call.newJWTSource config.SpiffeSocketPath, Call.fetchJWTSVID config.Audience,
          Call.post "https://sts.googleapis.com/v1/token" "application/json"
            (json.Marshal (oauth2.tokenRequest (oauth2.SpiffeTokenSource config).new jwt).fields),
          Call.send (oauth2.impersonateRequest (oauth2.SpiffeTokenSource config).new fed)]) := by
  have key : ∀ (s : stdoauth2.reuseTokenSource) (t : stdoauth2.Token) (log : List Call),
      s.t = some t → t.AccessToken ≠ "" → now2.ns + 10 * time.Second ≤ t.Expiry.ns →
      s.Token w2 dec2 now2 log = (.ok t, s, log) := by
    intro s t log hs ha he
    apply reuse_valid w2 dec2 now2 s log t hs
    simp [stdoauth2.Valid, ha, not_expired_of_early t now2 he]
  refine ⟨key, ?_⟩
  intro config tok s1 log1 h ha he
  have hv : stdoauth2.Valid (oauth2.SpiffeTokenSource config).t now1 = false := rfl
  rw [reuse_refresh w1 dec1 now1 _ [] hv] at h
  rcases hT : (oauth2.SpiffeTokenSource config).new.Token w1 dec1 [] with ⟨e | t, l⟩
  · rw [hT] at h; simp at h
  · rw [hT] at h
    simp only [Prod.mk.injEq, Except.ok.injEq] at h
    obtain ⟨ht, hs, hl⟩ := h
    subst ht hl
    refine ⟨key s1 t l (by rw [← hs]) ha he, ?_⟩
    obtain ⟨jwt, fed, hlog⟩ :=
      Token_ok_calls w1 dec1 (oauth2.SpiffeTokenSource config).new [] l t hT
    exact ⟨jwt, fed, by simpa using hlog⟩

/-- C3 amended, at the sample world: the first call at 00:00:00 caches a token that
expires at 00:10:00, the second call one second later returns it with no further call. -/
theorem C3_cached_token_reused_witness :
    (oauth2.SpiffeTokenSource (oauth2.DefaultConfig sample.sts.serviceAccount
        sample.sts.audience)).Token sample.world sample.decoder (time.Date 2025 1 1 0 0 0 0) []
      = (.ok ⟨"SA1", "Bearer", time.Date 2025 1 1 0 10 0 0⟩,
         ⟨sample.sts, some ⟨"SA1", "Bearer", time.Date 2025 1 1 0 10 0 0⟩⟩,
         [Call.newJWTSource sample.sts.spiffeSocketPath, Call.fetchJWTSVID sample.sts.audience,
          Call.post "https://sts.googleapis.com/v1/token" "application/json"
            (json.Marshal (oauth2.tokenRequest sample.sts "JWT1").fields),
          Call.send (oauth2.impersonateRequest sample.sts "FED1")]) ∧
    stdoauth2.reuseTokenSource.Token sample.agentDown sample.decoder
        (time.Date 2025 1 1 0 0 1 0)
        ⟨sample.sts, some ⟨"SA1", "Bearer", time.Date 2025 1 1 0 10 0 0⟩⟩
        [Call.newJWTSource sample.sts.spiffeSocketPath, Call.fetchJWTSVID sample.sts.audience,
          Call.post "https://sts.googleapis.com/v1/token" "application/json"
            (json.Marshal (oauth2.tokenRequest sample.sts "JWT1").fields),
          Call.send (oauth2.impersonateRequest sample.sts "FED1")]
      = (.ok ⟨"SA1", "Bearer", time.Date 2025 1 1 0 10 0 0⟩,
         ⟨sample.sts, some ⟨"SA1", "Bearer", time.Date 2025 1 1 0 10 0 0⟩⟩,
         [Call.newJWTSource sample.sts.spiffeSocketPath, Call.fetchJWTSVID sample.sts.audience,
          Call.post "https://sts.googleapis.com/v1/token" "application/json"
            (json.Marshal (oauth2.tokenRequest sample.sts "JWT1").fields),
          Call.send (oauth2.impersonateRequest sample.sts "FED1")]) :=
  ⟨by decide,
   ((C3_cached_token_reused sample.world sample.agentDown sample.decoder sample.decoder
      (time.Date 2025 1 1 0 0 0 0) (time.Date 2025 1 1 0 0 1 0)).2
      (oauth2.DefaultConfig sample.sts.serviceAccount sample.sts.audience)
      ⟨"SA1", "Bearer", time.Date 2025 1 1 0 10 0 0⟩
      ⟨sample.sts, some ⟨"SA1", "Bearer", time.Date 2025 1 1 0 10 0 0⟩⟩ _
      (by decide) (by decide) (by decide)).1⟩

/-- C6: a failed refresh never changes the cache. Whenever the cache holds no valid token
(it is empty, or its token has expired or has an empty access token) and the pipeline fails
at any step, `Token` of the caching source returns that error and no token, and the cache
afterwards is the cache before. The next call, at the same or a later clock reading and
in any surroundings, runs the pipeline again from its first call, and returns and caches
what the pipeline returns. -/
theorem C6_failed_refresh_keeps_cache (w : World) (dec : oauth2.Decoder) (now : time.Time)
    (s : stdoauth2.reuseTokenSource) (log log1 : List Call) (e : GoError)
    (hv : stdoauth2.Valid s.t now = false)
    (hf : s.new.Token w dec log = (.error e, log1)) :
    s.Token w dec now log = (.error e, s, log1) ∧
    ∀ (w2 : World) (dec2 : oauth2.Decoder) (now2 : time.Time), now.ns ≤ now2.ns →
      (s.Token w2 dec2 now2 log1 =
        match s.new.Token w2 dec2 log1 with
        | (.error err, log2) => (.error err, s, log2)
        | (.ok t, log2) => (.ok t, { s with t := some t }, log2)) ∧
      ∃ more, (s.Token w2 dec2 now2 log1).2.2
        = log1 ++ Call.newJWTSource s.new.spiffeSocketPath :: more := by
  constructor
  · rw [reuse_refresh w dec now s log hv, hf]
  · intro w2 dec2 now2 hle
    have hv2 := invalid_mono s.t now now2 hv hle
    have hr := reuse_refresh w2 dec2 now2 s log1 hv2
    refine ⟨hr, ?_⟩
    obtain ⟨more, hm⟩ := Token_log_head w2 dec2 s.new log1
    refine ⟨more, ?_⟩
    rw [hr]
    rcases hT : s.new.Token w2 dec2 log1 with ⟨e2 | t2, l2⟩
    · rw [hT] at hm; exact hm
    · rw [hT] at hm; exact hm

/-- C6 at a cache holding a token that expired at 00:10:00, the clock at 00:10:01 and
the exchange endpoint answering 403: the error comes back and the cache is as before. -/
theorem C6_failed_refresh_keeps_cache_witness :
    stdoauth2.Valid (some ⟨"OLD", "Bearer", time.Date 2025 1 1 0 10 0 0⟩)
      (time.Date 2025 1 1 0 10 1 0) = false ∧
    stdoauth2.reuseTokenSource.Token sample.exchangeForbidden sample.decoder
        (time.Date 2025 1 1 0 10 1 0)
        ⟨sample.sts, some ⟨"OLD", "Bearer", time.Date 2025 1 1 0 10 0 0⟩⟩ []
      = (.error (.errorf "failed retrieving token: 403 - 403 Forbidden"),
         ⟨sample.sts, some ⟨"OLD", "Bearer", time.Date 2025 1 1 0 10 0 0⟩⟩,
         [Call.newJWTSource sample.sts.spiffeSocketPath, Call.fetchJWTSVID sample.sts.audience,
          Call.post "https://sts.googleapis.com/v1/token" "application/json"
            (json.Marshal (oauth2.tokenRequest sample.sts "JWT1").fields)]) :=
  ⟨by decide,
   (C6_failed_refresh_keeps_cache sample.exchangeForbidden sample.decoder
      (time.Date 2025 1 1 0 10 1 0)
      ⟨sample.sts, some ⟨"OLD", "Bearer", time.Date 2025 1 1 0 10 0 0⟩⟩ [] _ _
      (by decide) (by decide)).1⟩

section timelemmas

open time timestamp

theorem digit_isDigit (a : Nat) (h : a < 10) : isDigitChar (digit a) = true := by
  interval_cases a <;> decide

theorem digit_val (a : Nat) (h : a < 10) : digitVal (digit a) = a := by
  interval_cases a <;> decide

theorem digit_not_sign (a : Nat) (h : a < 10) : (digit a == '-') = false ∧ (digit a == '+') = false := by
  interval_cases a <;> decide

theorem digit_not_sep (a : Nat) (h : a < 10) : commaOrPeriod (digit a) = false := by
  interval_cases a <;> decide

theorem getnum_digits (a b : Nat) (ha : a < 10) (hb : b < 10) (rest : List Char) (fixed : Bool) :
    getnum (digit a :: digit b :: rest) fixed = some ((a : Int) * 10 + b, rest) := by
  simp [getnum, isDigit, digit_isDigit, digit_val, ha, hb]

theorem getnum_pad2 (n : Nat) (h : n < 100) (rest : List Char) (fixed : Bool) :
    getnum (pad2 n ++ rest) fixed = some ((n : Int), rest) := by
  have h1 : n / 10 < 10 := by omega
  have h2 : n % 10 < 10 := by omega
  have := getnum_digits (n / 10) (n % 10) h1 h2 rest fixed
  simp only [pad2, List.cons_append, List.nil_append]
  rw [this]
  congr 2
  omega

theorem atoi_pad4 (n : Nat) (h : n < 10000) : atoi (pad4 n) = some (n : Int) := by
  have h1 : n / 1000 < 10 := by omega
  have h2 : n / 100 % 10 < 10 := by omega
  have h3 : n / 10 % 10 < 10 := by omega
  have h4 : n % 10 < 10 := by omega
  simp [atoi, pad4, leadingInt, digit_isDigit, digit_val, digit_not_sign, h1, h2, h3, h4]
  omega

theorem skip_nil (v : List Char) : skip v [] = some v := by
  cases v <;> rfl

theorem skip_one (c : Char) (v : List Char) : skip (c :: v) [c] = some v := by
  simp [skip, skip_nil]

theorem parseElem_year (n : Nat) (h : n < 10000) (rest : List Char) (f : Fields) :
    parseElem .stdLongYear (pad4 n ++ rest) f = some ({ f with year := n }, rest) := by
  have h1 : n / 1000 < 10 := by omega
  have ht : (pad4 n ++ rest).take 4 = pad4 n := by simp [pad4]
  have hd : (pad4 n ++ rest).drop 4 = rest := by simp [pad4]
  have hl : ¬ (pad4 n ++ rest).length < 4 := by simp [pad4]
  have h0 : isDigit (pad4 n ++ rest) 0 = true := by simp [pad4, isDigit, digit_isDigit, h1]
  simp only [parseElem, ht, hd, atoi_pad4 n h, h0, hl]
  simp

theorem parseElem_month (n : Nat) (h1 : 1 ≤ n) (h2 : n ≤ 12) (rest : List Char) (f : Fields) :
    parseElem .stdZeroMonth (pad2 n ++ rest) f = some ({ f with month := n }, rest) := by
  have hle : ¬ ((n : Int) ≤ 0) := by omega
  have hlt : ¬ ((12 : Int) < n) := by omega
  simp [parseElem, getnum_pad2 n (by omega) rest, hle, hlt]

theorem parseElem_day (n : Nat) (h : n < 100) (rest : List Char) (f : Fields) :
    parseElem .stdZeroDay (pad2 n ++ rest) f = some ({ f with day := n }, rest) := by
  simp [parseElem, getnum_pad2 n h rest]

theorem parseElem_hour (n : Nat) (h : n < 24) (rest : List Char) (f : Fields) :
    parseElem .stdHour (pad2 n ++ rest) f = some ({ f with hour := n }, rest) := by
  have hlt : ¬ ((24 : Int) ≤ n) := by omega
  simp [parseElem, getnum_pad2 n (by omega) rest, hlt]

theorem parseElem_minute (n : Nat) (h : n < 60) (rest : List Char) (f : Fields) :
    parseElem .stdZeroMinute (pad2 n ++ rest) f = some ({ f with min := n }, rest) := by
  have hlt : ¬ ((60 : Int) ≤ n) := by omega
  simp [parseElem, getnum_pad2 n (by omega) rest, hlt]

/-- Seconds followed by text that does not start a fraction. -/
theorem parseElem_second (n : Nat) (h : n < 60) (rest : List Char) (f : Fields)
    (hr : (decide (rest.length ≥ 2) && commaOrPeriod (rest.headD 'x') && isDigit rest 1) = false) :
    parseElem .stdZeroSecond (pad2 n ++ rest) f = some ({ f with sec := n }, rest) := by
  have hc : (decide ((n : Int) < 0) || decide ((60 : Int) ≤ n)) = false := by
    simp only [Bool.or_eq_false_iff, decide_eq_false_iff_not]
    omega
  simp only [parseElem, getnum_pad2 n (by omega) rest, hc, hr]
  rfl

/-- The loop on `YYYY-MM-DDTHH:MM:SS` followed by text that does not start a fraction. -/
theorem parseLoop_text (c : Civil) (hv : c.valid) (tail : List Char)
    (hr : (decide (tail.length ≥ 2) && commaOrPeriod (tail.headD 'x') && isDigit tail 1) = false) :
    parseLoop layoutChunks (c.text tail) {} =
      some ({ year := c.year, month := c.month, day := c.day, hour := c.hour, min := c.min,
              sec := c.sec, nsec := 0 }, tail) := by
  obtain ⟨hy, hm1, hm2, hd1, hd2, hh, hmi, hs⟩ := hv
  have hd3 : c.day < 100 := by
    have : time.daysIn c.month c.year ≤ 31 := by
      unfold time.daysIn
      split
      · omega
      · have : (c.month : Int) = 1 ∨ (c.month : Int) = 2 ∨ (c.month : Int) = 3 ∨
            (c.month : Int) = 4 ∨ (c.month : Int) = 5 ∨ (c.month : Int) = 6 ∨
            (c.month : Int) = 7 ∨ (c.month : Int) = 8 ∨ (c.month : Int) = 9 ∨
            (c.month : Int) = 10 ∨ (c.month : Int) = 11 ∨ (c.month : Int) = 12 := by omega
        rcases this with h | h | h | h | h | h | h | h | h | h | h | h <;>
          rw [h] <;> decide
    omega
  simp only [layoutChunks, parseLoop, Civil.text, skip_nil, skip_one,
    parseElem_year c.year (by omega), parseElem_month c.month hm1 hm2,
    parseElem_day c.day hd3, parseElem_hour c.hour hh, parseElem_minute c.min hmi,
    fun f => parseElem_second c.sec hs tail f hr]

/-- Go's `time.Parse` reads a timestamp `YYYY-MM-DDTHH:MM:SSZ` as the instant it writes. -/
theorem Parse_format (c : Civil) (hv : c.valid) : Parse c.format = .ok c.instant := by
  have hl := parseLoop_text c hv ['Z'] (by decide)
  obtain ⟨hy, hm1, hm2, hd1, hd2, hh, hmi, hs⟩ := hv
  have hm : ¬ ((c.month : Int) < 0) := by omega
  have hd : ¬ ((c.day : Int) < 0) := by omega
  have hd' : ¬ ((c.day : Int) < 1) := by omega
  have hd'' : ¬ ((c.day : Int) > daysIn c.month c.year) := by omega
  simp [Parse, parseValue, Civil.format, hl, layoutTail, skip_one, hm, hd, hd', hd'', Civil.instant]

end timelemmas

section timeinversion

open time timestamp

theorem getnum_inv (s rest : List Char) (fixed : Bool) (n : Int)
    (h : getnum s fixed = some (n, rest)) :
    (∃ a b, s = a :: b :: rest ∧ isDigitChar a = true ∧ isDigitChar b = true) ∨
    (fixed = false ∧ ∃ a, s = a :: rest ∧ isDigitChar a = true) := by
  unfold getnum at h
  cases s with
  | nil => simp [isDigit] at h
  | cons a t =>
    cases t with
    | nil =>
      simp only [isDigit, List.get?] at h
      by_cases ha : isDigitChar a = true
      · cases fixed
        · simp [ha] at h
          exact Or.inr ⟨rfl, a, by rw [h.2], ha⟩
        · simp [ha] at h
      · simp [ha] at h
    | cons b r =>
      simp only [isDigit, List.get?] at h
      by_cases ha : isDigitChar a = true
      · by_cases hb : isDigitChar b = true
        · simp [ha, hb] at h
          exact Or.inl ⟨a, b, by rw [h.2], ha, hb⟩
        · cases fixed
          · simp [ha, hb] at h
            exact Or.inr ⟨rfl, a, by rw [h.2], ha⟩
          · simp [ha, hb] at h
      · simp [ha] at h

theorem skip_one_inv (c : Char) (v rest : List Char) (h : skip v [c] = some rest) :
    v = c :: rest := by
  cases v with
  | nil => simp [skip] at h
  | cons a t =>
    simp only [skip] at h
    by_cases hac : a = c
    · simp [hac, skip_nil] at h
      rw [hac, h]
    · simp [hac] at h

theorem leadingInt_nil_inv (s : List Char) (x q : Int) (h : leadingInt s x = (q, [])) :
    allDigits s := by
  induction s generalizing x with
  | nil => intro c hc; simp at hc
  | cons a t ih =>
    simp only [leadingInt] at h
    by_cases ha : isDigitChar a = true
    · simp only [ha, if_true] at h
      intro c hc
      rcases List.mem_cons.mp hc with rfl | hc
      · exact ha
      · exact ih _ h c hc
    · simp [ha] at h

theorem digit_char_not_sign (c : Char) (h : isDigitChar c = true) :
    (c == '-' || c == '+') = false := by
  simp only [isDigitChar, Bool.and_eq_true, decide_eq_true_eq] at h
  have h1 : c ≠ '-' := by
    rintro rfl
    exact absurd h.1 (by decide)
  have h2 : c ≠ '+' := by
    rintro rfl
    exact absurd h.1 (by decide)
  simp [h1, h2]

theorem atoi_digit_head_inv (s : List Char) (q : Int) (h0 : isDigit s 0 = true)
    (h : atoi s = some q) : allDigits s := by
  cases s with
  | nil => simp [isDigit] at h0
  | cons a t =>
    simp only [isDigit, List.get?] at h0
    have hs := digit_char_not_sign a h0
    simp only [atoi, hs] at h
    simp only [Bool.false_and, Bool.false_eq_true, if_false] at h
    rcases hl : leadingInt (a :: t) 0 with ⟨q', r⟩
    rw [hl] at h
    cases r with
    | nil => exact leadingInt_nil_inv _ _ _ hl
    | cons _ _ => simp at h

theorem parseElem_year_inv (v rest : List Char) (f f' : Fields)
    (h : parseElem .stdLongYear v f = some (f', rest)) :
    ∃ y, v = y ++ rest ∧ y.length = 4 ∧ allDigits y := by
  simp only [parseElem] at h
  by_cases hc : (decide (v.length < 4) || !isDigit v 0) = true
  · simp [hc] at h
  · simp only [hc] at h
    simp only [Bool.or_eq_true, decide_eq_true_eq, Bool.not_eq_true', not_or, not_lt,
      Bool.not_eq_false] at hc
    cases ha : atoi (v.take 4) with
    | none => simp [ha] at h
    | some y =>
      simp [ha] at h
      refine ⟨v.take 4, ?_, ?_, ?_⟩
      · rw [← h.2]; exact (List.take_append_drop 4 v).symm
      · simp [List.length_take]; omega
      · apply atoi_digit_head_inv _ y _ ha
        cases v with
        | nil => simp at hc
        | cons a t => simpa [isDigit] using hc.2

theorem getnum_fixed_inv (s rest : List Char) (n : Int)
    (h : getnum s true = some (n, rest)) :
    ∃ se, s = se ++ rest ∧ se.length = 2 ∧ allDigits se := by
  rcases getnum_inv s rest true n h with ⟨a, b, hs, ha, hb⟩ | ⟨hf, _⟩
  · refine ⟨[a, b], by simp [hs], rfl, ?_⟩
    intro c hc
    simp at hc
    rcases hc with rfl | rfl
    · exact ha
    · exact hb
  · simp at hf

theorem getnum_free_inv (s rest : List Char) (n : Int)
    (h : getnum s false = some (n, rest)) :
    ∃ se, s = se ++ rest ∧ (se.length = 1 ∨ se.length = 2) ∧ allDigits se := by
  rcases getnum_inv s rest false n h with ⟨a, b, hs, ha, hb⟩ | ⟨_, a, hs, ha⟩
  · refine ⟨[a, b], by simp [hs], Or.inr rfl, ?_⟩
    intro c hc
    simp at hc
    rcases hc with rfl | rfl
    · exact ha
    · exact hb
  · refine ⟨[a], by simp [hs], Or.inl rfl, ?_⟩
    intro c hc
    simp at hc
    rw [hc]; exact ha

theorem parseElem_month_inv (v rest : List Char) (f f' : Fields)
    (h : parseElem .stdZeroMonth v f = some (f', rest)) :
    ∃ se, v = se ++ rest ∧ se.length = 2 ∧ allDigits se := by
  simp only [parseElem] at h
  rcases hg : getnum v true with _ | ⟨n, r⟩
  · simp [hg] at h
  · rw [hg] at h
    simp only at h
    split at h
    · simp at h
    · simp only [Option.some.injEq, Prod.mk.injEq] at h
      rw [← h.2]; exact getnum_fixed_inv v r n hg

theorem parseElem_day_inv (v rest : List Char) (f f' : Fields)
    (h : parseElem .stdZeroDay v f = some (f', rest)) :
    ∃ se, v = se ++ rest ∧ se.length = 2 ∧ allDigits se := by
  simp only [parseElem] at h
  rcases hg : getnum v true with _ | ⟨n, r⟩
  · simp [hg] at h
  · rw [hg] at h
    simp only [Option.some.injEq, Prod.mk.injEq] at h
    rw [← h.2]; exact getnum_fixed_inv v r n hg

theorem parseElem_minute_inv (v rest : List Char) (f f' : Fields)
    (h : parseElem .stdZeroMinute v f = some (f', rest)) :
    ∃ se, v = se ++ rest ∧ se.length = 2 ∧ allDigits se := by
  simp only [parseElem] at h
  rcases hg : getnum v true with _ | ⟨n, r⟩
  · simp [hg] at h
  · rw [hg] at h
    simp only at h
    split at h
    · simp at h
    · simp only [Option.some.injEq, Prod.mk.injEq] at h
      rw [← h.2]; exact getnum_fixed_inv v r n hg

theorem parseElem_hour_inv (v rest : List Char) (f f' : Fields)
    (h : parseElem .stdHour v f = some (f', rest)) :
    ∃ se, v = se ++ rest ∧ (se.length = 1 ∨ se.length = 2) ∧ allDigits se := by
  simp only [parseElem] at h
  rcases hg : getnum v false with _ | ⟨n, r⟩
  · simp [hg] at h
  · rw [hg] at h
    simp only at h
    split at h
    · simp at h
    · simp only [Option.some.injEq, Prod.mk.injEq] at h
      rw [← h.2]; exact getnum_free_inv v r n hg

theorem digitRun_take (s : List Char) : allDigits (s.take (digitRun s)) := by
  induction s with
  | nil => intro c hc; simp [digitRun] at hc
  | cons a t ih =>
    by_cases ha : isDigitChar a = true
    · simp only [digitRun, ha, if_true, List.take_succ_cons]
      intro c hc
      rcases List.mem_cons.mp hc with rfl | hc
      · exact ha
      · exact ih c hc
    · intro c hc
      simp [digitRun, ha] at hc

theorem parseElem_second_inv (v rest : List Char) (f f' : Fields)
    (h : parseElem .stdZeroSecond v f = some (f', rest)) :
    ∃ se frac, v = se ++ (frac ++ rest) ∧ se.length = 2 ∧ allDigits se ∧
      (frac = [] ∨ isFraction frac) := by
  simp only [parseElem] at h
  rcases hg : getnum v true with _ | ⟨n, r⟩
  · simp [hg] at h
  · rw [hg] at h
    simp only at h
    obtain ⟨se, hv, hl, hd⟩ := getnum_fixed_inv v r n hg
    split at h
    · simp at h
    · split at h
      · rename_i hcond
        simp only [Bool.and_eq_true, decide_eq_true_eq] at hcond
        obtain ⟨⟨hlen, hsep⟩, hdig⟩ := hcond
        cases hp : parseNanoseconds r (2 + digitRun (List.drop 2 r)) with
        | none => simp [hp] at h
        | some ns =>
          simp only [hp, Option.some.injEq, Prod.mk.injEq] at h
          match r, hlen, hsep, hdig, h with
          | sep :: d1 :: more, _, hsep, hdig, h =>
            simp only [List.headD_cons, isDigit, List.get?] at hsep hdig
            simp only [List.drop_succ_cons, List.drop_zero] at h
            have h2 : 2 + digitRun more = (digitRun more + 1) + 1 := by omega
            rw [h2] at h
            simp only [List.drop_succ_cons] at h
            refine ⟨se, sep :: d1 :: more.take (digitRun more), ?_, hl, hd, Or.inr ?_⟩
            · rw [hv, ← h.2]
              simp
            · refine ⟨sep, d1 :: more.take (digitRun more), rfl, ?_, by simp, ?_⟩
              · simpa [commaOrPeriod] using hsep
              · intro c hc
                rcases List.mem_cons.mp hc with rfl | hc
                · exact hdig
                · exact digitRun_take more c hc
      · simp only [Option.some.injEq, Prod.mk.injEq] at h
        exact ⟨se, [], by rw [hv, ← h.2]; simp, hl, hd, Or.inl rfl⟩

theorem parseLoop_cons_inv (lit : List Char) (std : Std) (chunks : List (List Char × Std))
    (v : List Char) (f : Fields) (r : Fields × List Char)
    (h : parseLoop ((lit, std) :: chunks) v f = some r) :
    ∃ v1 f1 v2, skip v lit = some v1 ∧ parseElem std v1 f = some (f1, v2) ∧
      parseLoop chunks v2 f1 = some r := by
  simp only [parseLoop] at h
  cases hs : skip v lit with
  | none => simp [hs] at h
  | some v1 =>
    rw [hs] at h
    simp only at h
    rcases hp : parseElem std v1 f with _ | ⟨f1, v2⟩
    · simp [hp] at h
    · rw [hp] at h
      exact ⟨v1, f1, v2, rfl, hp, h⟩

/-- Whatever `time.Parse` accepts under the layout has the form
`YYYY-MM-DDTH[H]:MM:SS[fraction]Z`. -/
theorem parseValue_inv (v : List Char) (t : Time) (h : parseValue v = some t) :
    wideForm v := by
  simp only [parseValue] at h
  rcases hl : parseLoop layoutChunks v {} with _ | ⟨f, v7⟩
  · simp [hl] at h
  · rw [hl] at h
    simp only at h
    cases hz : skip v7 layoutTail with
    | none => simp [hz] at h
    | some rest =>
      rw [hz] at h
      simp only at h
      have hrest : rest = [] := by
        by_contra hne
        have : (rest.length != 0) = true := by
          simp [List.length_eq_zero, hne]
        simp [this] at h
      subst hrest
      have hv7 := skip_one_inv 'Z' v7 [] hz
      unfold layoutChunks at hl
      obtain ⟨a1, f1, b1, hs1, hp1, hl⟩ := parseLoop_cons_inv _ _ _ _ _ _ hl
      obtain ⟨a2, f2, b2, hs2, hp2, hl⟩ := parseLoop_cons_inv _ _ _ _ _ _ hl
      obtain ⟨a3, f3, b3, hs3, hp3, hl⟩ := parseLoop_cons_inv _ _ _ _ _ _ hl
      obtain ⟨a4, f4, b4, hs4, hp4, hl⟩ := parseLoop_cons_inv _ _ _ _ _ _ hl
      obtain ⟨a5, f5, b5, hs5, hp5, hl⟩ := parseLoop_cons_inv _ _ _ _ _ _ hl
      obtain ⟨a6, f6, b6, hs6, hp6, hl⟩ := parseLoop_cons_inv _ _ _ _ _ _ hl
      simp only [parseLoop, Option.some.injEq, Prod.mk.injEq] at hl
      rw [skip_nil] at hs1
      simp only [Option.some.injEq] at hs1
      have e2 := skip_one_inv _ _ _ hs2
      have e3 := skip_one_inv _ _ _ hs3
      have e4 := skip_one_inv _ _ _ hs4
      have e5 := skip_one_inv _ _ _ hs5
      have e6 := skip_one_inv _ _ _ hs6
      obtain ⟨y, ey, hy1, hy2⟩ := parseElem_year_inv _ _ _ _ hp1
      obtain ⟨mo, emo, hmo1, hmo2⟩ := parseElem_month_inv _ _ _ _ hp2
      obtain ⟨d, ed, hd1, hd2⟩ := parseElem_day_inv _ _ _ _ hp3
      obtain ⟨hh, eh, hh1, hh2⟩ := parseElem_hour_inv _ _ _ _ hp4
      obtain ⟨mi, emi, hmi1, hmi2⟩ := parseElem_minute_inv _ _ _ _ hp5
      obtain ⟨se, frac, ese, hse1, hse2, hfrac⟩ := parseElem_second_inv _ _ _ _ hp6
      refine ⟨y, mo, d, hh, mi, se, frac, ?_, hy1, hmo1, hd1, hh1, hmi1, hse1,
        hy2, hmo2, hd2, hh2, hmi2, hse2, hfrac⟩
      rw [hs1, ey, e2, emo, e3, ed, e4, eh, e5, emi, e6, ese, hl.2, hv7]

theorem Parse_ok_inv (s : String) (t : Time) (h : Parse s = .ok t) : wideForm s.data := by
  unfold Parse at h
  cases hp : parseValue s.data with
  | none => simp [hp] at h
  | some u => exact parseValue_inv s.data u hp

theorem Parse_error_of_not_wideForm (s : String) (h : ¬ wideForm s.data) :
    Parse s = .error (.timeParse layout s) := by
  unfold Parse
  cases hp : parseValue s.data with
  | none => rfl
  | some u => exact absurd (parseValue_inv s.data u hp) h

end timeinversion

section fraction

open time timestamp

theorem leadingInt_allDigits (s : List Char) (x : Int) (h : allDigits s) :
    leadingInt s x = (s.foldl (fun x c => x * 10 + digitVal c) x, []) := by
  induction s generalizing x with
  | nil => rfl
  | cons a t ih =>
    have ha : isDigitChar a = true := h a (List.mem_cons_self a t)
    have ht : allDigits t := fun c hc => h c (List.mem_cons_of_mem a hc)
    simp only [leadingInt, ha, if_true, List.foldl_cons]
    exact ih _ ht

theorem digitVal_nonneg (c : Char) (h : isDigitChar c = true) : 0 ≤ digitVal c := by
  simp only [isDigitChar, Bool.and_eq_true, decide_eq_true_eq] at h
  have h1 : (48 : Nat) ≤ c.toNat := h.1
  unfold digitVal
  omega

theorem foldl_digits_nonneg (s : List Char) (x : Int) (hx : 0 ≤ x) (h : allDigits s) :
    0 ≤ s.foldl (fun x c => x * 10 + digitVal c) x := by
  induction s generalizing x with
  | nil => exact hx
  | cons a t ih =>
    have ha : isDigitChar a = true := h a (List.mem_cons_self a t)
    have ht : allDigits t := fun c hc => h c (List.mem_cons_of_mem a hc)
    simp only [List.foldl_cons]
    apply ih _ _ ht
    have := digitVal_nonneg a ha
    omega

theorem atoi_allDigits (s : List Char) (hne : s ≠ []) (h : allDigits s) :
    atoi s = some (digitsValue s) := by
  cases s with
  | nil => exact absurd rfl hne
  | cons a t =>
    have ha : isDigitChar a = true := h a (List.mem_cons_self a t)
    have hs := digit_char_not_sign a ha
    simp only [atoi, hs]
    simp only [Bool.false_and, Bool.false_eq_true, if_false]
    rw [leadingInt_allDigits (a :: t) 0 h]
    rfl

theorem digitRun_append (s rest : List Char) (h : allDigits s) (c : Char)
    (hc : isDigitChar c = false) : digitRun (s ++ c :: rest) = s.length := by
  induction s with
  | nil => simp [digitRun, hc]
  | cons a t ih =>
    have ha : isDigitChar a = true := h a (List.mem_cons_self a t)
    have ht : allDigits t := fun c hc => h c (List.mem_cons_of_mem a hc)
    simp [digitRun, ha, ih ht]

theorem allDigits_take (s : List Char) (k : Nat) (h : allDigits s) : allDigits (s.take k) :=
  fun c hc => h c (List.mem_of_mem_take hc)

/-- The fraction of a second `sep ds` in front of the final `Z`. -/
theorem parseNanoseconds_fraction (sep : Char) (hsep : sep = '.' ∨ sep = ',')
    (ds : List Char) (hne : ds ≠ []) (hds : allDigits ds) :
    parseNanoseconds (sep :: (ds ++ ['Z'])) (1 + ds.length) = some (fractionNanos ds) := by
  have hcp : commaOrPeriod sep = true := by
    rcases hsep with rfl | rfl <;> decide
  have hnn : ¬ (digitsValue (ds.take 9) < 0) :=
    not_lt.mpr (foldl_digits_nonneg _ 0 (le_refl 0) (allDigits_take ds 9 hds))
  have hne9 : ds.take 9 ≠ [] := by
    cases ds with
    | nil => exact absurd rfl hne
    | cons a t => simp
  simp only [parseNanoseconds, hcp, Bool.not_true, Bool.false_eq_true, if_false]
  by_cases hlong : 1 + ds.length > 10
  · have ht : ((sep :: (ds ++ ['Z'])).take 10).take 10 = sep :: ds.take 9 := by
      simp only [List.take_take, min_self, List.take_succ_cons]
      rw [List.take_append_of_le_length (by omega)]
    simp only [hlong, if_true, ht, List.drop_succ_cons, List.drop_zero,
      atoi_allDigits _ hne9 (allDigits_take ds 9 hds), hnn, if_false]
    have hl : (ds.take 9).length = 9 := by simp [List.length_take]; omega
    simp [fractionNanos, hl]
  · have hk : 1 + ds.length = ds.length + 1 := by omega
    have ht : (sep :: (ds ++ ['Z'])).take (1 + ds.length) = sep :: ds := by
      rw [hk]
      simp
    have h9 : ds.take 9 = ds := List.take_of_length_le (by omega)
    simp only [hlong, if_false, ht, List.drop_succ_cons, List.drop_zero]
    rw [h9] at hne9 hnn
    simp only [atoi_allDigits _ hne hds, hnn, if_false]
    have he : 10 - (1 + ds.length) = 9 - ds.length := by omega
    simp [fractionNanos, h9, he]

theorem parseElem_second_fraction (n : Nat) (h : n < 60) (sep : Char)
    (hsep : sep = '.' ∨ sep = ',') (ds : List Char) (hne : ds ≠ []) (hds : allDigits ds)
    (f : Fields) :
    parseElem .stdZeroSecond (pad2 n ++ (sep :: (ds ++ ['Z']))) f =
      some ({ f with sec := n, nsec := fractionNanos ds }, ['Z']) := by
  have hc : (decide ((n : Int) < 0) || decide ((60 : Int) ≤ n)) = false := by
    simp only [Bool.or_eq_false_iff, decide_eq_false_iff_not]
    omega
  have hcp : commaOrPeriod sep = true := by
    rcases hsep with rfl | rfl <;> decide
  obtain ⟨d1, more, rfl⟩ : ∃ d1 more, ds = d1 :: more := by
    cases ds with
    | nil => exact absurd rfl hne
    | cons a t => exact ⟨a, t, rfl⟩
  have hd1 : isDigitChar d1 = true := hds d1 (List.mem_cons_self d1 more)
  have hmore : allDigits more := fun c hc => hds c (List.mem_cons_of_mem d1 hc)
  have hcond : (decide ((sep :: (d1 :: more ++ ['Z'])).length ≥ 2) &&
      commaOrPeriod ((sep :: (d1 :: more ++ ['Z'])).headD 'x') &&
      isDigit (sep :: (d1 :: more ++ ['Z'])) 1) = true := by
    simp [hcp, isDigit, hd1]
  have hrun : 2 + digitRun (List.drop 2 (sep :: (d1 :: more ++ ['Z'])))
      = 1 + (d1 :: more).length := by
    simp only [List.cons_append, List.drop_succ_cons, List.drop_zero, List.length_cons]
    rw [digitRun_append more [] hmore 'Z' (by decide)]
    omega
  have hdrop : List.drop (1 + (d1 :: more).length) (sep :: (d1 :: more ++ ['Z'])) = ['Z'] := by
    have hk : 1 + (d1 :: more).length = (more.length + 1) + 1 := by simp; omega
    rw [hk]
    simp
  simp only [parseElem, getnum_pad2 n (by omega), hc, hcond, hrun,
    parseNanoseconds_fraction sep hsep (d1 :: more) hne hds, hdrop]
  simp

/-- Go's `time.Parse` accepts a fraction of a second after the seconds and adds it to the
instant. -/
theorem Parse_fraction (c : Civil) (hv : c.valid) (sep : Char) (hsep : sep = '.' ∨ sep = ',')
    (ds : List Char) (hne : ds ≠ []) (hds : allDigits ds) :
    Parse ⟨c.text (sep :: (ds ++ ['Z']))⟩ = .ok (c.instant.Add (fractionNanos ds)) := by
  obtain ⟨hy, hm1, hm2, hd1, hd2, hh, hmi, hs⟩ := hv
  have hd3 : c.day < 100 := by
    have : time.daysIn c.month c.year ≤ 31 := by
      unfold time.daysIn
      split
      · omega
      · have : (c.month : Int) = 1 ∨ (c.month : Int) = 2 ∨ (c.month : Int) = 3 ∨
            (c.month : Int) = 4 ∨ (c.month : Int) = 5 ∨ (c.month : Int) = 6 ∨
            (c.month : Int) = 7 ∨ (c.month : Int) = 8 ∨ (c.month : Int) = 9 ∨
            (c.month : Int) = 10 ∨ (c.month : Int) = 11 ∨ (c.month : Int) = 12 := by omega
        rcases this with h | h | h | h | h | h | h | h | h | h | h | h <;>
          rw [h] <;> decide
    omega
  have hl : parseLoop layoutChunks (c.text (sep :: (ds ++ ['Z']))) {} =
      some ({ year := c.year, month := c.month, day := c.day, hour := c.hour, min := c.min,
              sec := c.sec, nsec := fractionNanos ds }, ['Z']) := by
    simp only [layoutChunks, parseLoop, Civil.text, skip_nil, skip_one,
      parseElem_year c.year (by omega), parseElem_month c.month hm1 hm2,
      parseElem_day c.day hd3, parseElem_hour c.hour hh, parseElem_minute c.min hmi,
      fun f => parseElem_second_fraction c.sec hs sep hsep ds hne hds f]
  have hm : ¬ ((c.month : Int) < 0) := by omega
  have hd : ¬ ((c.day : Int) < 0) := by omega
  have hd' : ¬ ((c.day : Int) < 1) := by omega
  have hd'' : ¬ ((c.day : Int) > daysIn c.month c.year) := by omega
  simp [Parse, parseValue, hl, layoutTail, skip_one, hm, hd, hd', hd'', Civil.instant,
    Time.Add, Date]

end fraction

/-- C2: when the three steps succeed and the impersonation answer is the access token `a`
with an `expireTime` of the form `YYYY-MM-DDTHH:MM:SSZ` naming a valid second `c`, `Token`
returns exactly the token with access token `a`, the instant `c` names as expiry, and
type `Bearer`. The federated token `fed` is arbitrary: its `expires_in`, `token_type` and
`issued_token_type` do not enter the result. -/
theorem C2_token_from_impersonation (w : World) (dec : oauth2.Decoder)
    (sts : oauth2.spiffeTokenSource) (log l1 l2 l3 : List Call) (jwt : String)
    (fed : oauth2.accessTokenResponse) (a : String) (c : timestamp.Civil) (hv : c.valid)
    (h1 : oauth2.getSpiffeJwt w sts log = (.ok jwt, l1))
    (hx : oauth2.getWorkloadIdentityFederationToken w dec sts jwt {} l1 = ⟨none, fed, l2⟩)
    (hi : oauth2.impersonateIamServiceAccount w dec sts fed.AccessToken {} l2
      = ⟨none, { AccessToken := a, ExpireTime := c.format }, l3⟩) :
    sts.Token w dec log
      = (.ok { AccessToken := a, Expiry := c.instant, TokenType := "Bearer" }, l3) := by
  rw [Token_of_steps w dec sts log l1 l2 l3 jwt fed _ h1 hx hi]
  simp only [Parse_format c hv]

/-- C2 at the sample world: `SA1` with `2025-01-01T00:10:00Z` gives the expiry
2025-01-01 00:10:00 UTC, which is 1735690200 seconds after the Unix epoch. -/
theorem C2_token_from_impersonation_witness :
    (timestamp.Civil.mk 2025 1 1 0 10 0).valid ∧
    (timestamp.Civil.mk 2025 1 1 0 10 0).format = "2025-01-01T00:10:00Z" ∧
    (timestamp.Civil.mk 2025 1 1 0 10 0).instant.ns
      = (62135596800 + 1735690200) * 1000000000 ∧
    oauth2.impersonateIamServiceAccount sample.world sample.decoder sample.sts "FED1" {}
        [Call.newJWTSource sample.sts.spiffeSocketPath, Call.fetchJWTSVID sample.sts.audience,
          Call.post "https://sts.googleapis.com/v1/token" "application/json"
            (json.Marshal (oauth2.tokenRequest sample.sts "JWT1").fields)]
      = ⟨none, { AccessToken := "SA1", ExpireTime := "2025-01-01T00:10:00Z" },
         [Call.newJWTSource sample.sts.spiffeSocketPath, Call.fetchJWTSVID sample.sts.audience,
          Call.post "https://sts.googleapis.com/v1/token" "application/json"
            (json.Marshal (oauth2.tokenRequest sample.sts "JWT1").fields),
          Call.send (oauth2.impersonateRequest sample.sts "FED1")]⟩ ∧
    sample.sts.Token sample.world sample.decoder []
      = (.ok { AccessToken := "SA1",
               Expiry := (timestamp.Civil.mk 2025 1 1 0 10 0).instant,
               TokenType := "Bearer" },
         [Call.newJWTSource sample.sts.spiffeSocketPath, Call.fetchJWTSVID sample.sts.audience,
          Call.post "https://sts.googleapis.com/v1/token" "application/json"
            (json.Marshal (oauth2.tokenRequest sample.sts "JWT1").fields),
          Call.send (oauth2.impersonateRequest sample.sts "FED1")]) :=
  ⟨by decide, by decide, by decide, by decide,
   C2_token_from_impersonation sample.world sample.decoder sample.sts []
     [Call.newJWTSource sample.sts.spiffeSocketPath, Call.fetchJWTSVID sample.sts.audience]
     [Call.newJWTSource sample.sts.spiffeSocketPath, Call.fetchJWTSVID sample.sts.audience,
       Call.post "https://sts.googleapis.com/v1/token" "application/json"
         (json.Marshal (oauth2.tokenRequest sample.sts "JWT1").fields)]
     _ "JWT1" { AccessToken := "FED1", ExpiresIn := 3600, TokenType := "Bearer" } "SA1"
     (timestamp.Civil.mk 2025 1 1 0 10 0) (by decide) (by decide) (by decide) (by decide)⟩

/-- C4, as the claim states it, fails: the three steps succeed, the impersonation answer
carries `2025-01-01T00:10:00.500Z`, and `Token` returns a token, whose expiry keeps the
half second. -/
theorem C4_fraction_accepted_counterexample :
    oauth2.impersonateIamServiceAccount sample.fraction sample.decoder sample.sts "FED1" {} []
      = ⟨none, { AccessToken := "SA1", ExpireTime := "2025-01-01T00:10:00.500Z" },
         [Call.send (oauth2.impersonateRequest sample.sts "FED1")]⟩ ∧
    (sample.sts.Token sample.fraction sample.decoder []).1
      = .ok { AccessToken := "SA1",
              Expiry := (time.Date 2025 1 1 0 10 0 0).Add (500 * 1000000),
              TokenType := "Bearer" } := by
  decide

/-- A text of the wide form ends in `Z`. -/
theorem wideForm_last (s : List Char) (h : timestamp.wideForm s) : s.getLast? = some 'Z' := by
  obtain ⟨y, mo, d, hh, mi, se, frac, hs, _⟩ := h
  have e : s = (y ++ ('-' :: (mo ++ ('-' :: (d ++ ('T' :: (hh ++ (':' :: (mi ++ (':' ::
      (se ++ frac))))))))))) ++ ['Z'] := by
    rw [hs]; simp
  rw [e, List.getLast?_append]
  simp

/-- C4, amended: the timestamp check is the one `time.Parse` applies under the layout.
When the three steps succeed, `Token` fails with the parse error for every `expireTime`
that is not of the form `YYYY-MM-DDTH[H]:MM:SS[fraction]Z`; and an `expireTime` that
writes a valid second followed by a fraction (a period or comma and one or more digits)
and `Z` is accepted, its fraction added to the expiry up to the nanosecond. -/
theorem C4_timestamp_form (w : World) (dec : oauth2.Decoder)
    (sts : oauth2.spiffeTokenSource) (log l1 l2 l3 : List Call) (jwt : String)
    (fed : oauth2.accessTokenResponse) (sa : oauth2.serviceAccountTokenResponse)
    (h1 : oauth2.getSpiffeJwt w sts log = (.ok jwt, l1))
    (hx : oauth2.getWorkloadIdentityFederationToken w dec sts jwt {} l1 = ⟨none, fed, l2⟩)
    (hi : oauth2.impersonateIamServiceAccount w dec sts fed.AccessToken {} l2
      = ⟨none, sa, l3⟩) :
    (¬ timestamp.wideForm sa.ExpireTime.data →
      sts.Token w dec log = (.error (.timeParse time.layout sa.ExpireTime), l3)) ∧
    (∀ (c : timestamp.Civil) (sep : Char) (ds : List Char),
      c.valid → (sep = '.' ∨ sep = ',') → ds ≠ [] → timestamp.allDigits ds →
      sa.ExpireTime = ⟨c.text (sep :: (ds ++ ['Z']))⟩ →
      sts.Token w dec log
        = (.ok { AccessToken := sa.AccessToken,
                 Expiry := c.instant.Add (timestamp.fractionNanos ds),
                 TokenType := "Bearer" }, l3)) := by
  rw [Token_of_steps w dec sts log l1 l2 l3 jwt fed sa h1 hx hi]
  constructor
  · intro hn
    simp only [Parse_error_of_not_wideForm sa.ExpireTime hn]
  · intro c sep ds hv hsep hne hds hs
    rw [hs]
    simp only [Parse_fraction c hv sep hsep ds hne hds]

/-- C4 amended, at two sample worlds: `2025-01-01T00:10:00+00:00` is refused,
`2025-01-01T00:10:00.500Z` gives the expiry 00:10:00.5. -/
theorem C4_timestamp_form_witness :
    sample.sts.Token sample.offset sample.decoder []
      = (.error (.timeParse time.layout "2025-01-01T00:10:00+00:00"),
         [Call.newJWTSource sample.sts.spiffeSocketPath, Call.fetchJWTSVID sample.sts.audience,
          Call.post "https://sts.googleapis.com/v1/token" "application/json"
            (json.Marshal (oauth2.tokenRequest sample.sts "JWT1").fields),
          Call.send (oauth2.impersonateRequest sample.sts "FED1")]) ∧
    sample.sts.Token sample.fraction sample.decoder []
      = (.ok { AccessToken := "SA1",
               Expiry := (timestamp.Civil.mk 2025 1 1 0 10 0).instant.Add
                 (timestamp.fractionNanos ['5', '0', '0']),
               TokenType := "Bearer" },
         [Call.newJWTSource sample.sts.spiffeSocketPath, Call.fetchJWTSVID sample.sts.audience,
          Call.post "https://sts.googleapis.com/v1/token" "application/json"
            (json.Marshal (oauth2.tokenRequest sample.sts "JWT1").fields),
          Call.send (oauth2.impersonateRequest sample.sts "FED1")]) :=
  ⟨(C4_timestamp_form sample.offset sample.decoder sample.sts []
      [Call.newJWTSource sample.sts.spiffeSocketPath, Call.fetchJWTSVID sample.sts.audience]
      [Call.newJWTSource sample.sts.spiffeSocketPath, Call.fetchJWTSVID sample.sts.audience,
        Call.post "https://sts.googleapis.com/v1/token" "application/json"
          (json.Marshal (oauth2.tokenRequest sample.sts "JWT1").fields)]
      _ "JWT1" { AccessToken := "FED1", ExpiresIn := 3600, TokenType := "Bearer" }
      { AccessToken := "SA1", ExpireTime := "2025-01-01T00:10:00+00:00" }
      (by decide) (by decide) (by decide)).1
      (fun h => absurd (wideForm_last _ h) (by decide)),
   (C4_timestamp_form sample.fraction sample.decoder sample.sts []
      [Call.newJWTSource sample.sts.spiffeSocketPath, Call.fetchJWTSVID sample.sts.audience]
      [Call.newJWTSource sample.sts.spiffeSocketPath, Call.fetchJWTSVID sample.sts.audience,
        Call.post "https://sts.googleapis.com/v1/token" "application/json"
          (json.Marshal (oauth2.tokenRequest sample.sts "JWT1").fields)]
      _ "JWT1" { AccessToken := "FED1", ExpiresIn := 3600, TokenType := "Bearer" }
      { AccessToken := "SA1", ExpireTime := "2025-01-01T00:10:00.500Z" }
      (by decide) (by decide) (by decide)).2
      (timestamp.Civil.mk 2025 1 1 0 10 0) '.' ['5', '0', '0']
      (by decide) (Or.inl rfl) (by simp) (by decide) (by decide)⟩

section jsonlemmas

open json jsontext

theorem hexVal_hex (k : Nat) (h : k < 16) : hexVal (hex k) = some k := by
  interval_cases k <;> decide

theorem lex_string_char (acc : List Char) (c : Char) (tail : List Char)
    (h1 : c ≠ '\x22') (h2 : c ≠ '\x5c') (h3 : ¬ c.toNat < 0x20) :
    lex (some acc) (c :: tail) = lex (some (acc ++ [c])) tail := by
  rw [lex.eq_def]
  simp [h1, h2, h3]

theorem lex_unicode (acc : List Char) (a b c d ch : Char) (tail : List Char)
    (h : unicodeEscape a b c d = some ch) :
    lex (some acc) ('\x5c' :: 'u' :: a :: b :: c :: d :: tail) = lex (some (acc ++ [ch])) tail := by
  rw [lex.eq_def]
  simp [h]

theorem lex_simple (acc : List Char) (e ch : Char) (tail : List Char) (hu : e ≠ 'u')
    (h : simpleEscape e = some ch) :
    lex (some acc) ('\x5c' :: e :: tail) = lex (some (acc ++ [ch])) tail := by
  rw [lex.eq_def]
  simp [hu, h]

theorem unicodeEscape_ascii (c : Char) (h : c.toNat < 0x80) :
    unicodeEscape '0' '0' (hex (c.toNat / 16)) (hex (c.toNat % 16)) = some c := by
  have h1 : hexVal '0' = some 0 := by decide
  have h2 := hexVal_hex (c.toNat / 16) (by omega)
  have h3 := hexVal_hex (c.toNat % 16) (by omega)
  simp only [unicodeEscape, h1, h2, h3]
  have e : ((0 * 16 + 0) * 16 + c.toNat / 16) * 16 + c.toNat % 16 = c.toNat := by omega
  rw [e]
  have hs : ¬ (0xd800 ≤ c.toNat ∧ c.toNat ≤ 0xdfff) := by omega
  simp only [hs, if_false, Char.ofNat_toNat]

theorem unicodeEscape_separator (c : Char) (h : c.toNat = 0x2028 ∨ c.toNat = 0x2029) :
    unicodeEscape '2' '0' '2' (hex (c.toNat % 16)) = some c := by
  have h1 : hexVal '0' = some 0 := by decide
  have h2 : hexVal '2' = some 2 := by decide
  have h3 := hexVal_hex (c.toNat % 16) (by omega)
  simp only [unicodeEscape, h1, h2, h3]
  have e : ((2 * 16 + 0) * 16 + 2) * 16 + c.toNat % 16 = c.toNat := by omega
  rw [e]
  have hs : ¬ (0xd800 ≤ c.toNat ∧ c.toNat ≤ 0xdfff) := by omega
  simp only [hs, if_false, Char.ofNat_toNat]

/-- Inside a string literal the reader takes the encoding of a character for that
character. -/
theorem lex_encodeChar (acc : List Char) (c : Char) (tail : List Char) :
    lex (some acc) (encodeChar c ++ tail) = lex (some (acc ++ [c])) tail := by
  unfold encodeChar
  by_cases hascii : c.toNat < 0x80
  · simp only [hascii, if_true]
    by_cases hsafe : htmlSafe c = true
    · simp only [hsafe, if_true, List.cons_append, List.nil_append]
      simp only [htmlSafe, Bool.and_eq_true, decide_eq_true_eq, bne_iff_ne] at hsafe
      exact lex_string_char acc c tail hsafe.1.1.1.1.2 hsafe.2 (by omega)
    · simp only [hsafe, Bool.false_eq_true, if_false]
      by_cases hq : c = '\x5c' ∨ c = '\x22'
      · simp only [hq, if_true, List.cons_append, List.nil_append]
        rcases hq with rfl | rfl
        · exact lex_simple acc _ _ tail (by decide) (by decide)
        · exact lex_simple acc _ _ tail (by decide) (by decide)
      · simp only [hq, if_false]
        by_cases hb : c = '\x08'
        · subst hb
          exact lex_simple acc 'b' _ tail (by decide) (by decide)
        · simp only [hb, if_false]
          by_cases hf : c = '\x0c'
          · subst hf
            exact lex_simple acc 'f' _ tail (by decide) (by decide)
          · simp only [hf, if_false]
            by_cases hn : c = '\n'
            · subst hn
              exact lex_simple acc 'n' _ tail (by decide) (by decide)
            · simp only [hn, if_false]
              by_cases hr : c = '\r'
              · subst hr
                exact lex_simple acc 'r' _ tail (by decide) (by decide)
              · simp only [hr, if_false]
                by_cases ht : c = '\t'
                · subst ht
                  exact lex_simple acc 't' _ tail (by decide) (by decide)
                · simp only [ht, if_false, List.cons_append, List.nil_append]
                  exact lex_unicode acc _ _ _ _ c tail (unicodeEscape_ascii c hascii)
  · simp only [hascii, if_false]
    by_cases hsep : c.toNat = 0x2028 ∨ c.toNat = 0x2029
    · simp only [hsep, if_true, List.cons_append, List.nil_append]
      exact lex_unicode acc _ _ _ _ c tail (unicodeEscape_separator c hsep)
    · simp only [hsep, if_false, List.cons_append, List.nil_append]
      have h1 : c ≠ '\x22' := by
        rintro rfl
        exact hascii (by decide)
      have h2 : c ≠ '\x5c' := by
        rintro rfl
        exact hascii (by decide)
      exact lex_string_char acc c tail h1 h2 (by omega)

theorem lex_encodeChars (s acc tail : List Char) :
    lex (some acc) (encodeChars s ++ tail) = lex (some (acc ++ s)) tail := by
  induction s generalizing acc with
  | nil => simp [encodeChars]
  | cons c t ih =>
    simp only [encodeChars, List.append_assoc]
    rw [lex_encodeChar, ih]
    simp

/-- The reader takes the string literal the encoder writes for the string it encodes. -/
theorem lex_appendString (s : String) (tail : List Char) :
    lex none (appendString s ++ tail) = (lex none tail).map (fun ts => Tok.str s :: ts) := by
  simp only [appendString, List.cons_append, List.append_assoc, List.nil_append]
  have h0 : lex none ('\x22' :: (encodeChars s.data ++ '\x22' :: tail))
      = lex (some []) (encodeChars s.data ++ '\x22' :: tail) := by
    rw [lex.eq_def]
    simp [isSpace]
  rw [h0, lex_encodeChars, lex.eq_def]
  simp

end jsonlemmas

section marshal

open json jsontext

theorem lex_structural (c : Char) (t : Tok) (tail : List Char) (h : structural c = some t)
    (hs : isSpace c = false) (hq : c ≠ '\x22') :
    lex none (c :: tail) = (lex none tail).map (fun ts => t :: ts) := by
  rw [lex.eq_def]
  simp [h, hs, hq]

theorem lex_member (f : Field) (tail : List Char) :
    lex none (member f ++ tail) =
      (lex none tail).map (fun ts => Tok.str f.name :: Tok.colon :: Tok.str f.value :: ts) := by
  simp only [member, List.append_assoc, List.cons_append]
  rw [lex_appendString, lex_structural ':' Tok.colon _ (by decide) (by decide) (by decide),
    lex_appendString]
  cases h : lex none tail <;> simp [h]

theorem lex_members (fs : List Field) (tail : List Char) :
    lex none (members fs ++ tail) =
      (lex none tail).map
        (fun ts => memberTokens (fs.map (fun f => (f.name, f.value))) ++ ts) := by
  induction fs with
  | nil => cases h : lex none tail <;> simp [members, memberTokens, h]
  | cons f rest ih =>
    cases rest with
    | nil =>
      simp only [members, lex_member, List.map, memberTokens]
      cases h : lex none tail <;> simp [h]
    | cons g rest =>
      simp only [members, List.append_assoc, List.cons_append, lex_member]
      rw [lex_structural ',' Tok.comma _ (by decide) (by decide) (by decide), ih]
      cases h : lex none tail <;> simp [memberTokens, h]

/-- What `Marshal` writes reads back as the object of the emitted fields. -/
theorem tokens_Marshal (fs : List Field) :
    tokens (Marshal fs) =
      some (objectTokens ((emitted fs).map (fun f => (f.name, f.value)))) := by
  simp only [tokens, Marshal]
  rw [lex_structural '\x7b' Tok.lbrace _ (by decide) (by decide) (by decide), lex_members,
    lex_structural '\x7d' Tok.rbrace _ (by decide) (by decide) (by decide)]
  simp [lex, objectTokens]

end marshal

section bodies

open json jsontext

/-- The fields `Marshal` emits for the exchange request: those of the six members whose
value is not empty; `options` is never set. -/
theorem emitted_tokenRequest (sts : oauth2.spiffeTokenSource) (jwt : String) :
    (emitted (oauth2.tokenRequest sts jwt).fields).map (fun f => (f.name, f.value))
      = (expected.exchangeMembers sts.audience sts.scope jwt).filter (fun m => m.2 != "") := by
  simp only [oauth2.tokenRequest, oauth2.accessTokenRequest.fields, emitted,
    expected.exchangeMembers]
  by_cases ha : sts.audience = "" <;> by_cases hs : sts.scope = "" <;>
    by_cases hj : jwt = "" <;> simp [List.filter_cons, ha, hs, hj]

theorem sprintf_scope_body (sc : String) :
    fmt.Sprintf "\x7b\n        \x22scope\x22: [ \x22%s\x22 ]\n    \x7d" [.str sc]
      = ⟨"\x7b\n        \x22scope\x22: [ \x22".data ++ (sc.data ++ "\x22 ]\n    \x7d".data)⟩ := by
  simp [fmt.Sprintf, fmt.sprintfAux, fmt.fmtArg]

theorem sprintf_bearer (wif : String) :
    fmt.Sprintf "Bearer %s" [.str wif] = "Bearer " ++ wif := by
  apply String.ext
  simp [fmt.Sprintf, fmt.sprintfAux, fmt.fmtArg]

theorem sprintf_iam_url (sa : String) :
    fmt.Sprintf
        "https://iamcredentials.googleapis.com/v1/projects/-/serviceAccounts/%s:generateAccessToken"
        [.str sa]
      = "https://iamcredentials.googleapis.com/v1/projects/-/serviceAccounts/" ++ sa
          ++ ":generateAccessToken" := by
  apply String.ext
  simp [fmt.Sprintf, fmt.sprintfAux, fmt.fmtArg]

theorem lex_plain (s acc tail : List Char) (h : ∀ c ∈ s, expected.plainChar c = true) :
    lex (some acc) (s ++ tail) = lex (some (acc ++ s)) tail := by
  induction s generalizing acc with
  | nil => simp
  | cons c t ih =>
    have hc := h c (List.mem_cons_self c t)
    simp only [expected.plainChar, Bool.and_eq_true, bne_iff_ne, decide_eq_true_eq] at hc
    rw [List.cons_append, lex_string_char acc c _ hc.1.1 hc.1.2 (by omega),
      ih _ (fun d hd => h d (List.mem_cons_of_mem c hd))]
    simp

end bodies

/-- C8, as the claim states it, fails: with an empty audience configured the body posted to
the STS endpoint is an object of five members, without `audience`. -/
theorem C8_empty_audience_counterexample :
    (oauth2.getWorkloadIdentityFederationToken sample.world sample.decoder sample.noAudience
        "JWT1" {} []).log
      = [Call.post "https://sts.googleapis.com/v1/token" "application/json"
          (json.Marshal (oauth2.tokenRequest sample.noAudience "JWT1").fields)] ∧
    jsontext.tokens (json.Marshal (oauth2.tokenRequest sample.noAudience "JWT1").fields)
      = some (jsontext.objectTokens
          [("grantType", "urn:ietf:params:oauth:grant-type:token-exchange"),
           ("scope", "https://www.googleapis.com/auth/cloud-platform"),
           ("requestedTokenType", "urn:ietf:params:oauth:token-type:access_token"),
           ("subjectToken", "JWT1"),
           ("subjectTokenType", "urn:ietf:params:oauth:token-type:jwt")]) ∧
    jsontext.tokens (json.Marshal (oauth2.tokenRequest sample.noAudience "JWT1").fields)
      ≠ some (jsontext.objectTokens
          (expected.exchangeMembers "" "https://www.googleapis.com/auth/cloud-platform" "JWT1")) := by
  decide

/-- C8, amended: the body `getWorkloadIdentityFederationToken` posts to the STS endpoint
is a JSON object whose members are, in order, those of `grantType`, `audience`, `scope`,
`requestedTokenType`, `subjectToken`, `subjectTokenType` whose value is not the empty
string, with the three protocol constants, the configured audience and scope and the
assertion as values; so it has exactly the six members when the audience, the scope and
the assertion are not empty. -/
theorem C8_exchange_body (w : World) (dec : oauth2.Decoder) (sts : oauth2.spiffeTokenSource)
    (jwt : String) (token : oauth2.accessTokenResponse) (log : List Call) :
    (oauth2.getWorkloadIdentityFederationToken w dec sts jwt token log).log
      = log ++ [Call.post "https://sts.googleapis.com/v1/token" "application/json"
          (json.Marshal (oauth2.tokenRequest sts jwt).fields)] ∧
    jsontext.tokens (json.Marshal (oauth2.tokenRequest sts jwt).fields)
      = some (jsontext.objectTokens
          ((expected.exchangeMembers sts.audience sts.scope jwt).filter
            (fun m => m.2 != ""))) ∧
    (sts.audience ≠ "" → sts.scope ≠ "" → jwt ≠ "" →
      jsontext.tokens (json.Marshal (oauth2.tokenRequest sts jwt).fields)
        = some (jsontext.objectTokens (expected.exchangeMembers sts.audience sts.scope jwt))) := by
  have ht : jsontext.tokens (json.Marshal (oauth2.tokenRequest sts jwt).fields)
      = some (jsontext.objectTokens
          ((expected.exchangeMembers sts.audience sts.scope jwt).filter
            (fun m => m.2 != ""))) := by
    rw [tokens_Marshal, emitted_tokenRequest]
  refine ⟨getWorkloadIdentityFederationToken_log w dec sts jwt token log, ht, ?_⟩
  intro ha hs hj
  rw [ht]
  simp [expected.exchangeMembers, List.filter_cons, ha, hs, hj]

/-- C8 amended, at the sample source and the assertion `JWT1`. -/
theorem C8_exchange_body_witness :
    sample.sts.audience ≠ "" ∧ sample.sts.scope ≠ "" ∧ "JWT1" ≠ "" ∧
    jsontext.tokens (json.Marshal (oauth2.tokenRequest sample.sts "JWT1").fields)
      = some (jsontext.objectTokens
          (expected.exchangeMembers sample.sts.audience sample.sts.scope "JWT1")) :=
  ⟨by decide, by decide, by decide,
   (C8_exchange_body sample.world sample.decoder sample.sts "JWT1" {} []).2.2
     (by decide) (by decide) (by decide)⟩

/-- The request of the impersonation step for a scope of plain characters (no double
quote, no backslash, no control character): its body is the object `scope` of the
one-element array holding the scope. -/
theorem impersonateRequest_plain_scope (sts : oauth2.spiffeTokenSource) (wif : String)
    (h : ∀ c ∈ sts.scope.data, expected.plainChar c = true) :
    jsontext.tokens (oauth2.impersonateRequest sts wif).Body
      = some (expected.scopeTokens sts.scope) := by
  simp only [oauth2.impersonateRequest, jsontext.tokens, sprintf_scope_body]
  have hpre : ∀ tail, jsontext.lex none ("\x7b\n        \x22scope\x22: [ \x22".data ++ tail)
      = (jsontext.lex (some []) tail).map
          (fun ts => jsontext.Tok.lbrace :: jsontext.Tok.str "scope" :: jsontext.Tok.colon ::
            jsontext.Tok.lbrack :: ts) := by
    intro tail
    simp [jsontext.lex, jsontext.isSpace, jsontext.structural, jsontext.simpleEscape]
    cases jsontext.lex (some []) tail <;> rfl
  rw [hpre, lex_plain _ _ _ h]
  simp [jsontext.lex, jsontext.isSpace, jsontext.structural, expected.scopeTokens]

/-- The URL, the method and the `Authorization` header of the impersonation request. -/
theorem impersonateRequest_target (sts : oauth2.spiffeTokenSource) (wif : String) :
    (oauth2.impersonateRequest sts wif).Method = "POST" ∧
    (oauth2.impersonateRequest sts wif).URL
      = "https://iamcredentials.googleapis.com/v1/projects/-/serviceAccounts/"
          ++ sts.serviceAccount ++ ":generateAccessToken" ∧
    (oauth2.impersonateRequest sts wif).Header.Get "Authorization" = "Bearer " ++ wif := by
  refine ⟨rfl, ?_, ?_⟩
  · simp only [oauth2.impersonateRequest, sprintf_iam_url]
  · simp [oauth2.impersonateRequest, sprintf_bearer, http.Header.Set, http.Header.Get]

/-- C9 at failing inputs: the scope is copied into the body without escaping. With the
scope `a"b`, and with a scope ending in a backslash, the body is not JSON text; with the
scope `x", "y` the body is an array of two elements. With the sample scope, free of such
characters, the body is the object of the one-element array holding the scope. -/
theorem C9_scope_not_escaped :
    (oauth2.impersonateRequest sample.quotedScope "FED1").Body
      = "\x7b\n        \x22scope\x22: [ \x22a\x22b\x22 ]\n    \x7d" ∧
    jsontext.tokens (oauth2.impersonateRequest sample.quotedScope "FED1").Body = none ∧
    jsontext.tokens (oauth2.impersonateRequest sample.backslashScope "FED1").Body = none ∧
    jsontext.tokens (oauth2.impersonateRequest sample.splitScope "FED1").Body
      = some [.lbrace, .str "scope", .colon, .lbrack, .str "x", .comma, .str "y",
              .rbrack, .rbrace] ∧
    jsontext.tokens (oauth2.impersonateRequest sample.sts "FED1").Body
      = some (expected.scopeTokens sample.sts.scope) ∧
    jsontext.tokens (json.Marshal (oauth2.tokenRequest sample.quotedScope "JWT1").fields)
      = some (jsontext.objectTokens
          (expected.exchangeMembers sample.sts.audience "a\x22b" "JWT1")) := by
  decide
